import Mathlib

/-!
# Verification of the SPN link/terminal/routing core

Shallow embedding of the Go sources of the SPN repository (navigator
routing profiles, docks expand/latency operations, hub import, captain
shutdown, crane update hook) together with theorems settling the frozen
claims about them.

Durations are modelled in nanoseconds (Go `time.Duration` is an int64
nanosecond count), capacities in bits per second, byte strings as
`List Nat`, and Go `float32` costs as rationals (`Rat`); Go maps are
modelled as `Option`-valued functions.
-/

namespace Spn

/-- Taxonomy of `terminal.Error` kinds used by the embedded code
(src uses `terminal.ErrPermissinDenied`, `terminal.ErrMalformedData`,
`terminal.ErrHubUnavailable`, `terminal.ErrIntegrity`,
`terminal.ErrIncorrectUsage`, `terminal.ErrInternalError`,
`terminal.ErrStopping`, `terminal.ErrTimeout`, and `hub.ErrOldData`). -/
inductive TermErr where
  | permissionDenied
  | malformedData
  | hubUnavailable
  | integrity
  | incorrectUsage
  | internalError
  | stopping
  | timeout
  | oldData
  deriving DecidableEq, Repr

/-! ## Navigator: routing profiles (src/navigator/routing-profiles.go) -/

/-- `RoutingProfile` from src/navigator/routing-profiles.go.  Go `int`
fields become `Int`; the `float32` cost budget becomes `Rat`. -/
structure RoutingProfile where
  ID : String
  MinHops : Int
  MaxHops : Int
  MaxExtraHops : Int
  MaxExtraCost : Rat
  deriving DecidableEq, Repr

/-- `RoutingProfileDefault` from src/navigator/routing-profiles.go. -/
def RoutingProfileDefault : RoutingProfile :=
  { ID := "default", MinHops := 3, MaxHops := 5, MaxExtraHops := 2, MaxExtraCost := 100 }

/-- `RoutingProfileShortest` from src/navigator/routing-profiles.go. -/
def RoutingProfileShortest : RoutingProfile :=
  { ID := "shortest", MinHops := 1, MaxHops := 5, MaxExtraHops := 1, MaxExtraCost := 100 }

/-- A hop of a `Route`; only `hop.pin.Hub.ID` is inspected by
`checkRouteCompliance`, so a hop is modelled by that hub ID.
(`navigator/routes.go` itself is not under src/; the shape is taken from
the field accesses in src/navigator/routing-profiles.go.) -/
structure Hop where
  hubID : String
  deriving DecidableEq, Repr

/-- A candidate route: its path of hops and its total cost
(Go `float32`, modelled as `Rat`). -/
structure Route where
  Path : List Hop
  TotalCost : Rat
  deriving DecidableEq, Repr

/-- The set of found routes; `All[0]` is the best route found so far. -/
structure Routes where
  All : List Route
  deriving DecidableEq, Repr

/-- `routeCompliance` values from src/navigator/routing-profiles.go. -/
inductive RouteCompliance where
  | routeOk
  | routeNonCompliant
  | routeDisqualified
  deriving DecidableEq, Repr

/-- The hub re-use check of `checkRouteCompliance`
(src/navigator/routing-profiles.go lines 93-101): when the path has at
least two hops, compare the last hop's hub ID against every earlier hop. -/
def lastHopReused (path : List Hop) : Bool :=
  if 2 ≤ path.length then
    match path.getLast? with
    | some lastHop => path.dropLast.any (fun hop => lastHop.hubID == hop.hubID)
    | none => false
  else false

/-- `RoutingProfile.checkRouteCompliance` from
src/navigator/routing-profiles.go lines 85-116, translated branch by
branch: length bounds first, then hub re-use, then (once a route has been
found) the branch-and-bound optimization bounds against `All[0]`. -/
def checkRouteCompliance (rp : RoutingProfile) (route : Route) (foundRoutes : Routes) :
    RouteCompliance :=
  if (route.Path.length : Int) < rp.MinHops then .routeNonCompliant
  else if (route.Path.length : Int) > rp.MaxHops then .routeDisqualified
  else if lastHopReused route.Path then .routeDisqualified
  else
    match foundRoutes.All with
    | [] => .routeOk
    | best :: _ =>
      if route.TotalCost > best.TotalCost + rp.MaxExtraCost then .routeDisqualified
      else if (route.Path.length : Int) > (best.Path.length : Int) + rp.MaxExtraHops then
        .routeDisqualified
      else .routeOk

/-! ## Docks: expand operation start (src/docks/hub_import.go, `expand`) -/

/-- The inputs that `expand` (src/docks/hub_import.go lines 207-260)
inspects before creating the relay operation:
whether this node is a public hub (`conf.PublicHub()`), the destination
block parsed from the init data (`data.GetNextBlock`), whether the
terminal options parse (`terminal.ParseTerminalOpts`), the crane
registry lookup (`GetAssignedCrane`), whether the options re-pack
(`opts.Pack`), and the result of `EstablishNewTerminal`. -/
structure ExpandEnv where
  publicHub : Bool
  dstBlock : Option String
  optsParsed : Bool
  assignedCrane : String → Option Nat
  optsPackOk : Bool
  establishErr : Option TermErr

/-- `expand` from src/docks/hub_import.go lines 207-260, keeping the
source's check order: public-hub gate, destination parse, options parse,
crane lookup, option re-pack, terminal establishment.  The successful
result carries the relay crane the operation was wired to. -/
def expand (env : ExpandEnv) : Except TermErr Nat :=
  if ¬env.publicHub then .error .permissionDenied
  else
    match env.dstBlock with
    | none => .error .malformedData
    | some dst =>
      if ¬env.optsParsed then .error .malformedData
      else
        match env.assignedCrane dst with
        | none => .error .hubUnavailable
        | some relayCrane =>
          if ¬env.optsPackOk then .error .internalError
          else
            match env.establishErr with
            | some e => .error e
            | none => .ok relayCrane

/-! ## Theorems for C2 and C3 -/

/-- **C2.** For every route and routing profile, `checkRouteCompliance`
returns non-compliant when the path is shorter than `MinHops`,
disqualified when it is longer than `MaxHops`, disqualified when the last
hop's hub ID already appears earlier in the path, and, once at least one
route has been found, disqualified when total cost exceeds the best
route's cost plus `MaxExtraCost` or length exceeds the best route's
length plus `MaxExtraHops`; otherwise it returns OK. -/
theorem checkRouteCompliance_spec (rp : RoutingProfile) (route : Route)
    (foundRoutes : Routes) :
    ((route.Path.length : Int) < rp.MinHops →
      checkRouteCompliance rp route foundRoutes = .routeNonCompliant)
    ∧ (rp.MinHops ≤ (route.Path.length : Int) → rp.MaxHops < (route.Path.length : Int) →
      checkRouteCompliance rp route foundRoutes = .routeDisqualified)
    ∧ (rp.MinHops ≤ (route.Path.length : Int) → (route.Path.length : Int) ≤ rp.MaxHops →
      lastHopReused route.Path = true →
      checkRouteCompliance rp route foundRoutes = .routeDisqualified)
    ∧ (∀ best rest, foundRoutes.All = best :: rest →
      rp.MinHops ≤ (route.Path.length : Int) → (route.Path.length : Int) ≤ rp.MaxHops →
      lastHopReused route.Path = false →
      best.TotalCost + rp.MaxExtraCost < route.TotalCost →
      checkRouteCompliance rp route foundRoutes = .routeDisqualified)
    ∧ (∀ best rest, foundRoutes.All = best :: rest →
      rp.MinHops ≤ (route.Path.length : Int) → (route.Path.length : Int) ≤ rp.MaxHops →
      lastHopReused route.Path = false →
      route.TotalCost ≤ best.TotalCost + rp.MaxExtraCost →
      (best.Path.length : Int) + rp.MaxExtraHops < (route.Path.length : Int) →
      checkRouteCompliance rp route foundRoutes = .routeDisqualified)
    ∧ (rp.MinHops ≤ (route.Path.length : Int) → (route.Path.length : Int) ≤ rp.MaxHops →
      lastHopReused route.Path = false →
      (∀ best rest, foundRoutes.All = best :: rest →
        route.TotalCost ≤ best.TotalCost + rp.MaxExtraCost ∧
        (route.Path.length : Int) ≤ (best.Path.length : Int) + rp.MaxExtraHops) →
      checkRouteCompliance rp route foundRoutes = .routeOk) := by
  unfold checkRouteCompliance
  refine ⟨?_, ?_, ?_, ?_, ?_, ?_⟩
  · intro h
    simp [h]
  · intro h1 h2
    rw [if_neg (by omega), if_pos (by omega)]
  · intro h1 h2 h3
    rw [if_neg (by omega), if_neg (by omega), if_pos h3]
  · intro best rest hall h1 h2 h3 h4
    rw [if_neg (by omega), if_neg (by omega), if_neg (by simp [h3]), hall]
    simp [h4]
  · intro best rest hall h1 h2 h3 h4 h5
    rw [if_neg (by omega), if_neg (by omega), if_neg (by simp [h3]), hall]
    simp [not_lt.mpr h4, h5]
  · intro h1 h2 h3 hbound
    rw [if_neg (by omega), if_neg (by omega), if_neg (by simp [h3])]
    cases hall : foundRoutes.All with
    | nil => rfl
    | cons best rest =>
      obtain ⟨hc, hl⟩ := hbound best rest hall
      simp [not_lt.mpr hc, not_lt.mpr hl]

/-- Witness for C2: the default profile marks a 2-hop route
non-compliant at a concrete input. -/
theorem checkRouteCompliance_spec_witness :
    checkRouteCompliance RoutingProfileDefault
      { Path := [⟨"A"⟩, ⟨"B"⟩], TotalCost := 0 } { All := [] } = .routeNonCompliant :=
  (checkRouteCompliance_spec RoutingProfileDefault
    { Path := [⟨"A"⟩, ⟨"B"⟩], TotalCost := 0 } { All := [] }).1 (by decide)

/-- **C3.** An expand request fails with `PermissionDenied` when the
local hub is not public, fails with `HubUnavailable` when no crane is
assigned to the parsed destination hub ID, and in both failure cases no
relay operation is created (the result is an error, never `.ok`). -/
theorem expand_failure_spec (env : ExpandEnv) :
    (env.publicHub = false →
      expand env = .error .permissionDenied ∧ ∀ op, expand env ≠ .ok op)
    ∧ (∀ dst, env.publicHub = true → env.dstBlock = some dst →
      env.optsParsed = true → env.assignedCrane dst = none →
      expand env = .error .hubUnavailable ∧ ∀ op, expand env ≠ .ok op) := by
  constructor
  · intro h
    have : expand env = .error .permissionDenied := by
      unfold expand
      simp [h]
    exact ⟨this, fun op hok => by rw [this] at hok; exact Except.noConfusion hok⟩
  · intro dst hpub hdst hopts hcrane
    have : expand env = .error .hubUnavailable := by
      unfold expand
      simp [hpub, hdst, hopts, hcrane]
    exact ⟨this, fun op hok => by rw [this] at hok; exact Except.noConfusion hok⟩

/-- A concrete expand environment on a non-public hub with an empty
crane registry, used by the C3 witness. -/
def expandEnvPrivate : ExpandEnv :=
  { publicHub := false, dstBlock := some "h3", optsParsed := true,
    assignedCrane := (fun _ => none), optsPackOk := true, establishErr := none }

/-- The same concrete expand environment on a public hub, used by the
C3 witness. -/
def expandEnvPublic : ExpandEnv :=
  { expandEnvPrivate with publicHub := true }

/-- Witness for C3: concrete non-public environment is refused with
`PermissionDenied`, and a public one without an assigned crane fails
with `HubUnavailable`. -/
theorem expand_failure_spec_witness :
    expand expandEnvPrivate = .error .permissionDenied
    ∧ expand expandEnvPublic = .error .hubUnavailable :=
  ⟨((expand_failure_spec expandEnvPrivate).1 rfl).1,
   ((expand_failure_spec expandEnvPublic).2 "h3" rfl rfl rfl rfl).1⟩

/-! ## Docks: latency test operation (src/unnamed/part_001)

Constants and the client-side state from src/unnamed/part_001.
Durations are in nanoseconds, matching Go `time.Duration`. -/

/-- `latencyPingRequest` message type byte. -/
def latencyPingRequest : Nat := 1

/-- `latencyPingResponse` message type byte. -/
def latencyPingResponse : Nat := 2

/-- `latencyTestNonceSize` from src/unnamed/part_001. -/
def latencyTestNonceSize : Nat := 16

/-- `latencyTestRuns` from src/unnamed/part_001. -/
def latencyTestRuns : Nat := 10

/-- `latencyTestPauseDuration = 1 * time.Second`, in nanoseconds. -/
def latencyTestPauseDuration : Int := 1000000000

/-- `latencyTestOpTimeout = latencyTestRuns * latencyTestPauseDuration * 3`. -/
def latencyTestOpTimeout : Int := (latencyTestRuns : Int) * latencyTestPauseDuration * 3

/-- One hour in nanoseconds (`time.Hour`), the initial fold value of
`reportMeasuredLatencies`. -/
def nsPerHour : Int := 3600000000000

/-- Client-side mutable state of `LatencyTestClientOp`
(src/unnamed/part_001): when the last ping was sent, its nonce
(Go `nil` is modelled as `[]`), and the recorded round-trip latencies. -/
structure LatencyTestClientOp where
  lastPingSentAt : Int
  lastPingNonce : List Nat
  measuredLatencies : List Int
  deriving DecidableEq, Repr

/-- `createPingRequest` (src/unnamed/part_001 lines 153-171) builds
`varint.Pack8(latencyPingRequest) || nonce`; `Pack8` of a value < 128 is
that single byte. -/
def createPingRequest (nonce : List Nat) : List Nat :=
  latencyPingRequest :: nonce

/-- `LatencyTestClientOp.handleResponse` (src/unnamed/part_001 lines
173-193): read the type byte; on `latencyPingResponse` compare the rest
against the stored nonce (`Integrity` on mismatch), clear the nonce and
record `now - lastPingSentAt`; any other type byte is `IncorrectUsage`;
missing type byte is `MalformedData`. -/
def handleResponse (op : LatencyTestClientOp) (now : Int) (data : List Nat) :
    Except TermErr LatencyTestClientOp :=
  match data with
  | [] => .error .malformedData
  | rType :: rest =>
    if rType = latencyPingResponse then
      if op.lastPingNonce = rest then
        .ok { op with lastPingNonce := [],
                      measuredLatencies := op.measuredLatencies ++ [now - op.lastPingSentAt] }
      else .error .integrity
    else .error .incorrectUsage

/-- The fold of `reportMeasuredLatencies` (src/unnamed/part_001 lines
195-218): lowest value of the measured latencies, starting from
`time.Hour`. -/
def lowestLatency (lats : List Int) : Int :=
  lats.foldl (fun lowest latency => if latency < lowest then latency else lowest) nsPerHour

/-- State of the `LatencyTestClientOp.handler` worker loop
(src/unnamed/part_001 lines 98-151): the client op state, how many ping
requests were sent so far, whether (and with which delay) `nextTest` is
scheduled, the latency written to the connected hub's measurements by
`reportMeasuredLatencies`, whether the loop is still running, and the
error the op is ended with (`returnErr`; `none` models Go `nil` after a
successful report). -/
structure HandlerState where
  op : LatencyTestClientOp
  pingsSent : Nat
  nextTestIn : Option Int
  reported : Option Int
  running : Bool
  endErr : Option TermErr
  deriving DecidableEq, Repr

/-- `NewLatencyTestOp` (src/unnamed/part_001 lines 65-96): creates the
client op and sends the first ping request with a fresh nonce. -/
def newLatencyTestOp (nonce : List Nat) (now : Int) : HandlerState :=
  { op := { lastPingSentAt := now, lastPingNonce := nonce, measuredLatencies := [] },
    pingsSent := 1, nextTestIn := none, reported := none,
    running := true, endErr := none }

/-- Events the handler loop can wake up on: the `nextTest` timer firing
(a new ping with a fresh nonce is sent at time `now`), a response being
delivered at time `now`, the 30 s op timeout, and context cancellation. -/
inductive HandlerEvent where
  | nextTestFires (nonce : List Nat) (now : Int)
  | response (data : List Nat) (now : Int)
  | opTimeout
  | ctxDone
  deriving DecidableEq, Repr

/-- One iteration of the `handler` select loop (src/unnamed/part_001
lines 106-150).  On timeout or cancellation the loop returns with
`returnErr` still `ErrStopping`.  On a scheduled timer it sends the next
ping and clears the timer.  On a response it runs `handleResponse`; an
error ends the loop with that error; once `latencyTestRuns` latencies
are recorded, `reportMeasuredLatencies` stores the lowest latency and
the loop ends cleanly; otherwise `nextTest` is scheduled with
`latencyTestPauseDuration`. -/
def stepHandler (s : HandlerState) (ev : HandlerEvent) : HandlerState :=
  if ¬s.running then s
  else
    match ev with
    | .opTimeout => { s with running := false, endErr := some .stopping }
    | .ctxDone => { s with running := false, endErr := some .stopping }
    | .nextTestFires nonce now =>
      match s.nextTestIn with
      | none => s
      | some _ =>
        { s with op := { s.op with lastPingSentAt := now, lastPingNonce := nonce },
                 pingsSent := s.pingsSent + 1, nextTestIn := none }
    | .response data now =>
      match handleResponse s.op now data with
      | .error e => { s with running := false, endErr := some e }
      | .ok op' =>
        if latencyTestRuns ≤ op'.measuredLatencies.length then
          { s with op := op', reported := some (lowestLatency op'.measuredLatencies),
                   running := false, endErr := none }
        else
          { s with op := op', nextTestIn := some latencyTestPauseDuration }

/-- Run the handler loop over a list of wake-up events. -/
def runHandler (s : HandlerState) (events : List HandlerEvent) : HandlerState :=
  events.foldl stepHandler s

/-- The canonical wake-up sequence of a complete latency test following
the first response: for each further ping `(nonce, sentAt, respAt)`, the
`nextTest` timer fires (sending the ping at `sentAt`) and the echoed
response arrives at `respAt`. -/
def pingExchanges (pings : List (List Nat × Int × Int)) : List HandlerEvent :=
  match pings with
  | [] => []
  | (nonce, sentAt, respAt) :: rest =>
    .nextTestFires nonce sentAt :: .response (latencyPingResponse :: nonce) respAt ::
      pingExchanges rest

/-- The round-trip latencies measured for a list of pings. -/
def pingLatencies (pings : List (List Nat × Int × Int)) : List Int :=
  pings.map (fun p => p.2.2 - p.2.1)

theorem pingExchanges_cons (nonce : List Nat) (sentAt respAt : Int)
    (rest : List (List Nat × Int × Int)) :
    pingExchanges ((nonce, sentAt, respAt) :: rest)
      = .nextTestFires nonce sentAt :: .response (latencyPingResponse :: nonce) respAt ::
          pingExchanges rest := rfl

/-- A complete run of the handler loop from state `s`: the response to
the outstanding ping arrives at `respAt`, then the remaining pings are
exchanged. -/
def goodRun (s : HandlerState) (respAt : Int) (pings : List (List Nat × Int × Int)) :
    HandlerState :=
  runHandler s (.response (latencyPingResponse :: s.op.lastPingNonce) respAt ::
    pingExchanges pings)

theorem goodRun_spec (pings : List (List Nat × Int × Int)) :
    ∀ (t : Int) (n : List Nat) (L : List Int) (p : Nat) (rep : Option Int)
      (er : Option TermErr) (respAt : Int),
      L.length + 1 + pings.length = latencyTestRuns →
      (goodRun ⟨⟨t, n, L⟩, p, none, rep, true, er⟩ respAt pings).pingsSent = p + pings.length
      ∧ (goodRun ⟨⟨t, n, L⟩, p, none, rep, true, er⟩ respAt pings).op.measuredLatencies
        = L ++ (respAt - t) :: pingLatencies pings
      ∧ (goodRun ⟨⟨t, n, L⟩, p, none, rep, true, er⟩ respAt pings).running = false
      ∧ (goodRun ⟨⟨t, n, L⟩, p, none, rep, true, er⟩ respAt pings).endErr = none
      ∧ (goodRun ⟨⟨t, n, L⟩, p, none, rep, true, er⟩ respAt pings).reported
        = some (lowestLatency (L ++ (respAt - t) :: pingLatencies pings)) := by
  induction pings with
  | nil =>
    intro t n L p rep er respAt hlen
    have hge : latencyTestRuns ≤ L.length + 1 := by
      simp only [List.length_nil, Nat.add_zero] at hlen
      omega
    unfold goodRun runHandler pingExchanges
    simp only [List.foldl_cons, List.foldl_nil]
    unfold stepHandler handleResponse
    simp [hge, pingLatencies]
  | cons ping ps ih =>
    intro t n L p rep er respAt hlen
    obtain ⟨nonce, sentAt, respAt'⟩ := ping
    have hlt : ¬ latencyTestRuns ≤ L.length + 1 := by
      simp only [List.length_cons] at hlen
      omega
    have htrace : goodRun ⟨⟨t, n, L⟩, p, none, rep, true, er⟩ respAt
          ((nonce, sentAt, respAt') :: ps)
        = goodRun ⟨⟨sentAt, nonce, L ++ [respAt - t]⟩, p + 1, none, rep, true, er⟩
          respAt' ps := by
      unfold goodRun runHandler
      rw [pingExchanges_cons]
      simp only [List.foldl_cons]
      unfold stepHandler handleResponse
      simp [hlt]
    rw [htrace]
    have hrest := ih sentAt nonce (L ++ [respAt - t]) (p + 1) rep er respAt'
      (by simp only [List.length_append, List.length_cons, List.length_nil] at hlen ⊢; omega)
    obtain ⟨c1, c2, c3, c4, c5⟩ := hrest
    refine ⟨?_, ?_, c3, c4, ?_⟩
    · rw [c1]
      simp only [List.length_cons]
      omega
    · rw [c2]
      simp [pingLatencies]
    · rw [c5]
      simp [pingLatencies]

/-- The fold of `reportMeasuredLatencies` computes a value that is
either the initial accumulator or a list element, is bounded by the
accumulator, and lower-bounds every element. -/
theorem foldlLowest_spec (l : List Int) :
    ∀ (a : Int),
      (l.foldl (fun lowest latency => if latency < lowest then latency else lowest) a = a
        ∨ l.foldl (fun lowest latency => if latency < lowest then latency else lowest) a ∈ l)
      ∧ l.foldl (fun lowest latency => if latency < lowest then latency else lowest) a ≤ a
      ∧ ∀ x ∈ l,
          l.foldl (fun lowest latency => if latency < lowest then latency else lowest) a ≤ x := by
  induction l with
  | nil => simp
  | cons y ys ih =>
    intro a
    simp only [List.foldl_cons]
    by_cases h : y < a
    · rw [if_pos h]
      obtain ⟨h1, h2, h3⟩ := ih y
      refine ⟨?_, le_trans h2 (le_of_lt h), ?_⟩
      · rcases h1 with h1 | h1
        · exact Or.inr (by rw [h1]; exact List.mem_cons_self y ys)
        · exact Or.inr (List.mem_cons_of_mem y h1)
      · intro x hx
        rcases List.mem_cons.mp hx with hx | hx
        · rw [hx]; exact h2
        · exact h3 x hx
    · rw [if_neg h]
      obtain ⟨h1, h2, h3⟩ := ih a
      refine ⟨?_, h2, ?_⟩
      · rcases h1 with h1 | h1
        · exact Or.inl h1
        · exact Or.inr (List.mem_cons_of_mem y h1)
      · intro x hx
        rcases List.mem_cons.mp hx with hx | hx
        · rw [hx]; exact le_trans h2 (not_lt.mp h)
        · exact h3 x hx

/-- When every measured latency is below one hour (the fold's initial
value) and at least one was measured, `lowestLatency` is the minimum of
the measured latencies. -/
theorem lowestLatency_is_min (l : List Int) (hne : l ≠ [])
    (hb : ∀ x ∈ l, x < nsPerHour) :
    lowestLatency l ∈ l ∧ ∀ x ∈ l, lowestLatency l ≤ x := by
  obtain ⟨h1, _h2, h3⟩ := foldlLowest_spec l nsPerHour
  unfold lowestLatency
  refine ⟨?_, h3⟩
  rcases h1 with h1 | h1
  · cases l with
    | nil => exact absurd rfl hne
    | cons y ys =>
      exfalso
      have hy := h3 y (List.mem_cons_self y ys)
      rw [h1] at hy
      exact absurd (hb y (List.mem_cons_self y ys)) (not_lt.mpr hy)
  · exact h1

/-- **C4.** A successfully completing latency test client operation
sends exactly 10 ping requests (each a 1-byte type `1` followed by a
16-byte nonce, the next one scheduled `latencyTestPauseDuration = 1 s`
after a response), measures exactly 10 round-trip latencies, and the
value written as the connected hub's latency measurement is the minimum
of the 10 measured latencies (each latency is below the fold's one-hour
initial value, as enforced in practice by the 30 s op timeout). -/
theorem latencyTest_client_spec (nonce1 : List Nat) (t1 respAt1 : Int)
    (pings : List (List Nat × Int × Int))
    (hnonce : nonce1.length = latencyTestNonceSize)
    (hping : pings.length + 1 = latencyTestRuns)
    (hbound : ∀ x ∈ (respAt1 - t1) :: pingLatencies pings, x < nsPerHour) :
    (goodRun (newLatencyTestOp nonce1 t1) respAt1 pings).pingsSent = latencyTestRuns
    ∧ (goodRun (newLatencyTestOp nonce1 t1) respAt1 pings).op.measuredLatencies
        = (respAt1 - t1) :: pingLatencies pings
    ∧ ((respAt1 - t1) :: pingLatencies pings).length = latencyTestRuns
    ∧ (∃ m, (goodRun (newLatencyTestOp nonce1 t1) respAt1 pings).reported = some m
        ∧ m ∈ (respAt1 - t1) :: pingLatencies pings
        ∧ ∀ x ∈ (respAt1 - t1) :: pingLatencies pings, m ≤ x)
    ∧ createPingRequest nonce1 = latencyPingRequest :: nonce1
    ∧ (createPingRequest nonce1).length = 1 + latencyTestNonceSize
    ∧ latencyTestPauseDuration = 1000000000 := by
  have hlen : ([] : List Int).length + 1 + pings.length = latencyTestRuns := by
    simp only [List.length_nil, Nat.zero_add]
    omega
  have hkey := goodRun_spec pings t1 nonce1 [] 1 none none respAt1 hlen
  obtain ⟨k1, k2, k3, k4, k5⟩ := hkey
  have hstate : newLatencyTestOp nonce1 t1
      = ⟨⟨t1, nonce1, []⟩, 1, none, none, true, none⟩ := rfl
  rw [hstate]
  simp only [List.nil_append] at k1 k2 k5
  have hmin := lowestLatency_is_min ((respAt1 - t1) :: pingLatencies pings)
    (List.cons_ne_nil _ _) hbound
  refine ⟨?_, k2, ?_, ⟨lowestLatency ((respAt1 - t1) :: pingLatencies pings), k5, hmin.1, hmin.2⟩,
    rfl, ?_, rfl⟩
  · rw [k1]
    have : pings.length + 1 = latencyTestRuns := hping
    omega
  · simp only [List.length_cons, pingLatencies, List.length_map]
    omega
  · simp only [createPingRequest, List.length_cons, hnonce]
    omega

/-- Concrete 16-byte nonce for the latency test witnesses. -/
def nonceW : List Nat := List.replicate latencyTestNonceSize 7

/-- Nine concrete follow-up ping exchanges for the latency test
witness. -/
def pingsW : List (List Nat × Int × Int) :=
  [(nonceW, 10, 13), (nonceW, 20, 22), (nonceW, 30, 31), (nonceW, 40, 44),
   (nonceW, 50, 55), (nonceW, 60, 66), (nonceW, 70, 77), (nonceW, 80, 88),
   (nonceW, 90, 99)]

/-- Witness for C4 at a concrete complete run. -/
theorem latencyTest_client_spec_witness :
    (goodRun (newLatencyTestOp nonceW 0) 5 pingsW).pingsSent = latencyTestRuns
    ∧ (goodRun (newLatencyTestOp nonceW 0) 5 pingsW).op.measuredLatencies
        = ((5 : Int) - 0) :: pingLatencies pingsW
    ∧ (((5 : Int) - 0) :: pingLatencies pingsW).length = latencyTestRuns
    ∧ (∃ m, (goodRun (newLatencyTestOp nonceW 0) 5 pingsW).reported = some m
        ∧ m ∈ ((5 : Int) - 0) :: pingLatencies pingsW
        ∧ ∀ x ∈ ((5 : Int) - 0) :: pingLatencies pingsW, m ≤ x)
    ∧ createPingRequest nonceW = latencyPingRequest :: nonceW
    ∧ (createPingRequest nonceW).length = 1 + latencyTestNonceSize
    ∧ latencyTestPauseDuration = 1000000000 :=
  latencyTest_client_spec nonceW 0 5 pingsW (by decide) (by decide) (by decide)

/-- **C7.** A delivered response whose nonce does not equal the nonce
of the last sent ping yields an `Integrity` error, a response with an
unknown type byte (anything other than `latencyPingResponse = 2`)
yields an `IncorrectUsage` error, and the overall op timeout equals
30 seconds (10 runs × 1 s pause × 3). -/
theorem latencyTest_response_errors_spec :
    (∀ (op : LatencyTestClientOp) (now : Int) (rest : List Nat),
      op.lastPingNonce ≠ rest →
      handleResponse op now (latencyPingResponse :: rest) = .error .integrity)
    ∧ (∀ (op : LatencyTestClientOp) (now : Int) (rType : Nat) (rest : List Nat),
      rType ≠ latencyPingResponse →
      handleResponse op now (rType :: rest) = .error .incorrectUsage)
    ∧ latencyTestOpTimeout = 30000000000 := by
  refine ⟨?_, ?_, by decide⟩
  · intro op now rest h
    unfold handleResponse
    simp [h]
  · intro op now rType rest h
    unfold handleResponse
    simp [h]

/-- Witness for C7: a tampered nonce is rejected with `Integrity`, an
unknown type byte with `IncorrectUsage`, at concrete inputs. -/
theorem latencyTest_response_errors_spec_witness :
    handleResponse ⟨0, nonceW, []⟩ 5 (latencyPingResponse :: [1, 2]) = .error .integrity
    ∧ handleResponse ⟨0, nonceW, []⟩ 5 (7 :: nonceW) = .error .incorrectUsage :=
  ⟨latencyTest_response_errors_spec.1 ⟨0, nonceW, []⟩ 5 [1, 2] (by decide),
   latencyTest_response_errors_spec.2.1 ⟨0, nonceW, []⟩ 5 7 nonceW (by decide)⟩

/-! ## Hub errors (src/hub/errors.go) -/

/-- The message string of `hub.ErrOldData`.  src/hub/errors.go line 20
defines `ErrOldData = errors.New("")`: its message string is empty. -/
def errOldDataMessage : String := ""

/-- Modelled from the spec: the sequence-number acceptance check of
`hub.ApplyStatus` is not under src/ (only `hub/errors.go` is).  Per the
spec, "status is accepted only when its sequence number strictly
exceeds the last stored one (fails with `OldData` otherwise)". -/
def applyStatusSeqCheck (lastSeq newSeq : Int) : Except TermErr Unit :=
  if lastSeq < newSeq then .ok () else .error .oldData

/-- Counterexample for C8: the claim asserts that `ErrOldData` has a
non-empty message string, but src/hub/errors.go defines it as
`errors.New("")`, so its message string is empty. -/
theorem errOldData_counterexample : ¬ errOldDataMessage ≠ "" :=
  fun h => h rfl

/-- **C8 (amended).** Status data with a sequence number that does not
strictly exceed the last stored one is rejected with the `OldData`
error, and the `OldData` error's message string is empty. -/
theorem errOldData_spec :
    (∀ lastSeq newSeq : Int, newSeq ≤ lastSeq →
      applyStatusSeqCheck lastSeq newSeq = .error .oldData)
    ∧ errOldDataMessage = "" := by
  refine ⟨?_, rfl⟩
  intro lastSeq newSeq h
  unfold applyStatusSeqCheck
  rw [if_neg (not_lt.mpr h)]

/-- Witness for C8 at a concrete equal sequence number. -/
theorem errOldData_spec_witness :
    applyStatusSeqCheck 5 5 = .error .oldData :=
  errOldData_spec.1 5 5 (by decide)

/-! ## Captain: shutdown status (src/captain/public.go) -/

/-- Observable effects of `publishShutdownStatus`, in execution
order. -/
inductive ShutdownEvent where
  | logError
  | gossipHubStatus (data : List Nat)
  | sleepMs (ms : Nat)
  | logOffline
  deriving DecidableEq, Repr

/-- `publishShutdownStatus` from src/captain/public.go lines 234-249 as
an effect trace: create the offline status
(`publicIdentity.MakeOfflineStatus`, whose outcome is the argument); on
failure log an error and return; on success relay the status as a
gossip hub-status message, sleep 2 seconds, then log and return. -/
def publishShutdownStatus (makeOfflineStatus : Except Unit (List Nat)) :
    List ShutdownEvent :=
  match makeOfflineStatus with
  | .error _ => [.logError]
  | .ok offlineStatusData =>
    [.gossipHubStatus offlineStatusData, .sleepMs 2000, .logOffline]

/-- **C9.** On shutdown the offline status is gossiped before the
2-second sleep and `publishShutdownStatus` returns only after the sleep
(the sleep is the last effect before the final log); if creating the
offline status fails, nothing is gossiped and no sleep occurs. -/
theorem publishShutdownStatus_spec :
    (∀ data, publishShutdownStatus (.ok data)
      = [.gossipHubStatus data, .sleepMs 2000, .logOffline])
    ∧ (∀ e, (∀ ev ∈ publishShutdownStatus (.error e),
        (∀ data, ev ≠ .gossipHubStatus data) ∧ (∀ ms, ev ≠ .sleepMs ms))) := by
  refine ⟨fun data => rfl, ?_⟩
  intro e ev hev
  unfold publishShutdownStatus at hev
  simp only [List.mem_singleton] at hev
  subst hev
  exact ⟨fun data h => ShutdownEvent.noConfusion h, fun ms h => ShutdownEvent.noConfusion h⟩

/-- Witness for C9 at concrete inputs: success emits gossip, then the
2 s sleep; failure emits neither. -/
theorem publishShutdownStatus_spec_witness :
    publishShutdownStatus (.ok [1, 2, 3])
      = [.gossipHubStatus [1, 2, 3], .sleepMs 2000, .logOffline]
    ∧ ((∀ data, (.logError : ShutdownEvent) ≠ .gossipHubStatus data)
        ∧ ∀ ms, (.logError : ShutdownEvent) ≠ .sleepMs ms) :=
  ⟨publishShutdownStatus_spec.1 [1, 2, 3],
   publishShutdownStatus_spec.2 () .logError (by decide)⟩

/-! ## Docks: crane update hook (src/unnamed/part_000) -/

/-- A crane of the docks package, reduced to its identity: the hook
mechanism never inspects the crane. -/
structure Crane where
  craneID : Nat
  deriving DecidableEq, Repr

/-- The type of the process-wide `craneUpdateHook` function variable;
the observable effect of invoking a hook on a crane is abstracted as a
`Nat`. -/
def CraneUpdateHook : Type := Crane → Nat

/-- `RegisterCraneUpdateHook` from src/unnamed/part_000 lines 14-24:
install `fn` only when no hook is registered; otherwise keep the
existing hook (the source only logs an error). -/
def RegisterCraneUpdateHook (craneUpdateHook : Option CraneUpdateHook)
    (fn : CraneUpdateHook) : Option CraneUpdateHook :=
  match craneUpdateHook with
  | none => some fn
  | some _ => craneUpdateHook

/-- `ResetCraneUpdateHook` from src/unnamed/part_000 lines 26-32:
clear the registered hook. -/
def ResetCraneUpdateHook (_ : Option CraneUpdateHook) : Option CraneUpdateHook :=
  none

/-- `Crane.NotifyUpdate` from src/unnamed/part_000 lines 34-42: invoke
the registered hook on the crane when one is registered; the result is
the invocation's effect, `none` when no hook is registered (no-op). -/
def NotifyUpdate (craneUpdateHook : Option CraneUpdateHook) (crane : Crane) : Option Nat :=
  match craneUpdateHook with
  | none => none
  | some fn => some (fn crane)

/-- **C10.** The crane update hook is first-registration-wins:
registering into an empty slot installs the function, registering over
an existing hook leaves it in place, `ResetCraneUpdateHook` clears the
slot (after which registration succeeds again), and `NotifyUpdate`
invokes the hook exactly when one is registered and is a no-op
otherwise. -/
theorem craneUpdateHook_spec (fn g : CraneUpdateHook) (s : Option CraneUpdateHook)
    (crane : Crane) :
    RegisterCraneUpdateHook none fn = some fn
    ∧ RegisterCraneUpdateHook (some g) fn = some g
    ∧ ResetCraneUpdateHook s = none
    ∧ RegisterCraneUpdateHook (ResetCraneUpdateHook (some g)) fn = some fn
    ∧ NotifyUpdate none crane = none
    ∧ NotifyUpdate (some fn) crane = some (fn crane)
    ∧ ((NotifyUpdate s crane).isSome ↔ s.isSome) := by
  refine ⟨rfl, rfl, rfl, rfl, rfl, rfl, ?_⟩
  cases s with
  | none => simp [NotifyUpdate]
  | some fn' => simp [NotifyUpdate]

/-! ## Docks: expand relay teardown (src/docks/hub_import.go, expand part) -/

/-- A `*terminal.Error` value as passed around the expand teardown:
Go `nil`, a plain error kind, or an error wrapped by
`err.Wrap("relay failed with")`. -/
inductive ExpandErr where
  | nilErr
  | err (k : TermErr)
  | wrapped (base : ExpandErr)
  deriving DecidableEq, Repr

/-- Observable lifecycle state shared by an `ExpandOp` and its
`ExpansionRelayTerminal` (src/docks/hub_import.go): the `op.ended` and
`relayTerminal.abandoned` atomic booleans, whether `op.cancelCtx` was
called, and the calls made to `opTerminal.OpEnd` (ending the op on its
origin terminal) and to `relayTerminal.crane.AbandonTerminal`
(abandoning the relay side), in order. -/
structure ExpandOpState where
  ended : Bool
  abandoned : Bool
  ctxCancelled : Bool
  opEndCalls : List ExpandErr
  craneAbandonCalls : List ExpandErr
  deriving DecidableEq, Repr

/-- `ExpandOp.End` (src/docks/hub_import.go lines 337-351): only the
first call (guarded by `ended.SetToIf(false, true)`) ends the op on its
origin terminal via `opTerminal.OpEnd`, cancels the shared context, and
abandons the relay terminal on its crane with a `nil` error. -/
def ExpandOp.End (s : ExpandOpState) (e : ExpandErr) : ExpandOpState :=
  if s.ended then s
  else
    { s with
      ended := true,
      opEndCalls := s.opEndCalls ++ [e],
      ctxCancelled := true,
      craneAbandonCalls := s.craneAbandonCalls ++ [.nilErr] }

/-- `ExpandOp.Abandon` (src/docks/hub_import.go lines 331-335) is a
proxy for `End`, needed for the terminal interface of the DFQ. -/
def ExpandOp.Abandon (s : ExpandOpState) (e : ExpandErr) : ExpandOpState :=
  ExpandOp.End s e

/-- `ExpansionRelayTerminal.Abandon` (src/docks/hub_import.go lines
353-362): only the first call (guarded by `abandoned.SetToIf`) abandons
the relay terminal on its crane with the given error and then ends the
connected op with the error wrapped by "relay failed with". -/
def ExpansionRelayTerminal.Abandon (s : ExpandOpState) (e : ExpandErr) : ExpandOpState :=
  if s.abandoned then s
  else
    ExpandOp.End
      { s with
        abandoned := true,
        craneAbandonCalls := s.craneAbandonCalls ++ [e] }
      (.wrapped e)

/-- `ExpandOp.forwardHandler` (src/docks/hub_import.go lines 286-314)
reduced to its counter and metric effects: `activeExpandOps` is
incremented when the handler starts and decremented (deferred) when it
exits, and every forwarded frame adds its length to `dataRelayed`.
Returns (counter while running, counter after exit, final
dataRelayed). -/
def forwardHandlerRun (activeExpandOps : Int) (dataRelayed : Nat)
    (frames : List (List Nat)) : Int × Int × Nat :=
  (activeExpandOps + 1,
   activeExpandOps + 1 - 1,
   frames.foldl (fun acc c => acc + c.length) dataRelayed)

theorem foldl_add_length (frames : List (List Nat)) :
    ∀ d : Nat, frames.foldl (fun acc c => acc + c.length) d
      = d + (frames.map List.length).sum := by
  induction frames with
  | nil => intro d; simp
  | cons f fs ih =>
    intro d
    simp only [List.foldl_cons, List.map_cons, List.sum_cons]
    rw [ih]
    omega

/-- **C5.** Expand teardown: `Abandon` on the op is `End`; the first
`End` call (and only the first; later calls are no-ops) ends the op on
its origin terminal, cancels the shared context, and abandons the relay
terminal (with a nil error); the first relay-terminal `Abandon` call
(and only the first) abandons the relay terminal on its crane and ends
the op with a wrapped error; and the active-expand-ops counter is
incremented when the forward handler starts and returns to its prior
value when it exits, each forwarded frame adding its length to
`dataRelayed`. -/
theorem expandOp_end_spec :
    (∀ s e, ExpandOp.Abandon s e = ExpandOp.End s e)
    ∧ (∀ s e, s.ended = false →
        (ExpandOp.End s e).ended = true
        ∧ (ExpandOp.End s e).opEndCalls = s.opEndCalls ++ [e]
        ∧ (ExpandOp.End s e).ctxCancelled = true
        ∧ (ExpandOp.End s e).craneAbandonCalls = s.craneAbandonCalls ++ [.nilErr])
    ∧ (∀ s e, s.ended = true → ExpandOp.End s e = s)
    ∧ (∀ s e, s.abandoned = false → s.ended = false →
        (ExpansionRelayTerminal.Abandon s e).abandoned = true
        ∧ (ExpansionRelayTerminal.Abandon s e).craneAbandonCalls
            = s.craneAbandonCalls ++ [e, .nilErr]
        ∧ (ExpansionRelayTerminal.Abandon s e).opEndCalls = s.opEndCalls ++ [.wrapped e]
        ∧ (ExpansionRelayTerminal.Abandon s e).ctxCancelled = true
        ∧ (ExpansionRelayTerminal.Abandon s e).ended = true)
    ∧ (∀ s e, s.abandoned = true → ExpansionRelayTerminal.Abandon s e = s)
    ∧ (∀ (a : Int) (d : Nat) (frames : List (List Nat)),
        (forwardHandlerRun a d frames).1 = a + 1
        ∧ (forwardHandlerRun a d frames).2.1 = a
        ∧ (forwardHandlerRun a d frames).2.2 = d + (frames.map List.length).sum) := by
  refine ⟨fun s e => rfl, ?_, ?_, ?_, ?_, ?_⟩
  · intro s e h
    unfold ExpandOp.End
    simp [h]
  · intro s e h
    unfold ExpandOp.End
    simp [h]
  · intro s e hab hend
    unfold ExpansionRelayTerminal.Abandon ExpandOp.End
    simp [hab, hend]
  · intro s e hab
    unfold ExpansionRelayTerminal.Abandon
    simp [hab]
  · intro a d frames
    refine ⟨rfl, by simp [forwardHandlerRun], ?_⟩
    unfold forwardHandlerRun
    exact foldl_add_length frames d

/-- A fresh expand-op state: neither side ended, no calls recorded. -/
def expandStateFresh : ExpandOpState := ⟨false, false, false, [], []⟩

/-- Witness for C5 at concrete inputs: first `End` from a fresh state,
first relay `Abandon` from a fresh state, and idempotence of the second
`End`. -/
theorem expandOp_end_spec_witness :
    ((ExpandOp.End expandStateFresh (.err .integrity)).ended = true
      ∧ (ExpandOp.End expandStateFresh (.err .integrity)).opEndCalls
          = expandStateFresh.opEndCalls ++ [.err .integrity]
      ∧ (ExpandOp.End expandStateFresh (.err .integrity)).ctxCancelled = true
      ∧ (ExpandOp.End expandStateFresh (.err .integrity)).craneAbandonCalls
          = expandStateFresh.craneAbandonCalls ++ [.nilErr])
    ∧ ((ExpansionRelayTerminal.Abandon expandStateFresh (.err .stopping)).abandoned = true
      ∧ (ExpansionRelayTerminal.Abandon expandStateFresh (.err .stopping)).craneAbandonCalls
          = expandStateFresh.craneAbandonCalls ++ [.err .stopping, .nilErr]
      ∧ (ExpansionRelayTerminal.Abandon expandStateFresh (.err .stopping)).opEndCalls
          = expandStateFresh.opEndCalls ++ [.wrapped (.err .stopping)]
      ∧ (ExpansionRelayTerminal.Abandon expandStateFresh (.err .stopping)).ctxCancelled = true
      ∧ (ExpansionRelayTerminal.Abandon expandStateFresh (.err .stopping)).ended = true)
    ∧ ExpandOp.End (ExpandOp.End expandStateFresh (.err .integrity)) (.err .timeout)
        = ExpandOp.End expandStateFresh (.err .integrity) :=
  ⟨expandOp_end_spec.2.1 expandStateFresh (.err .integrity) rfl,
   expandOp_end_spec.2.2.2.1 expandStateFresh (.err .stopping) rfl rfl,
   expandOp_end_spec.2.2.1 (ExpandOp.End expandStateFresh (.err .integrity)) (.err .timeout)
     (by decide)⟩

/-! ## Docks: hub import (src/docks/hub_import.go, `ImportAndVerifyHubInfo`)

`ImportAndVerifyHubInfo` itself is under src/; the `hub.ApplyAnnouncement`
and `hub.ApplyStatus` functions it calls are not, and are modelled from
the spec below. -/

/-- A parsed hub announcement: the hub ID it identifies, its timestamp
(the replay sequence number), and the remaining payload. -/
structure AnnData where
  ID : String
  Timestamp : Int
  body : List Nat
  deriving DecidableEq, Repr

/-- A parsed hub status: the hub ID it belongs to, its timestamp (the
replay sequence number), and the remaining payload. -/
structure StatusData where
  ID : String
  Timestamp : Int
  body : List Nat
  deriving DecidableEq, Repr

/-- A hub record as persisted in the hub database: identity, announcement
(`Info`), status, and the verified-IPs flag set by `verifyHubIP`. -/
structure Hub where
  ID : String
  Info : Option AnnData
  Status : Option StatusData
  VerifiedIPs : Bool
  deriving DecidableEq, Repr

/-- The hub database, keyed by hub ID. -/
def HubStore : Type := String → Option Hub

/-- Persist a hub record (`h.Save()`). -/
def updateStore (store : HubStore) (id : String) (h : Hub) : HubStore :=
  fun k => if k = id then some h else store k

/-- Modelled from the spec: `hub.ApplyAnnouncement` is not under src/.
Per the spec, an import returns the hub and a forward flag "gated on
changed or new": a new hub or a changed announcement forwards, an
unchanged announcement does not. -/
def ApplyAnnouncement (store : HubStore) (data : AnnData) : Hub × Bool :=
  match store data.ID with
  | none => ({ ID := data.ID, Info := some data, Status := none, VerifiedIPs := false }, true)
  | some existing =>
    if existing.Info = some data then (existing, false)
    else ({ existing with Info := some data }, true)

/-- Modelled from the spec: `hub.ApplyStatus` is not under src/.  A
byte-identical re-import of the stored status is an idempotent no-op
(forward gated on "changed or new"); otherwise the status is accepted
only when its sequence number strictly exceeds the stored one, failing
with `OldData` (the spec's open question (b) notes the tension between
the two rules; this model resolves it in favour of both spec laws). -/
def ApplyStatus (store : HubStore) (h : Option Hub) (data : StatusData) :
    Except TermErr (Hub × Bool) :=
  let base :=
    match h with
    | some hb => hb
    | none =>
      match store data.ID with
      | some hb => hb
      | none => { ID := data.ID, Info := none, Status := none, VerifiedIPs := false }
  if base.Status = some data then .ok (base, false)
  else
    match base.Status with
    | none => .ok ({ base with Status := some data }, true)
    | some old =>
      match applyStatusSeqCheck old.Timestamp data.Timestamp with
      | .error e => .error e
      | .ok _ => .ok ({ base with Status := some data }, true)

/-- The tail of `ImportAndVerifyHubInfo` (src/docks/hub_import.go lines
54-99): the hub-ID mismatch check, IP verification when this node is a
public hub and the hub is not yet verified (`verifyHubIP`'s outcome is
the `verifyOk` argument), and persisting the hub. -/
def finishImport (store : HubStore) (publicHub verifyOk : Bool) (hubID : String)
    (h : Hub) (forward : Bool) : Except TermErr (Hub × Bool × HubStore) :=
  if hubID ≠ "" ∧ h.ID ≠ hubID then .error .internalError
  else if ¬h.VerifiedIPs ∧ publicHub then
    if verifyOk then
      .ok ({ h with VerifiedIPs := true }, forward,
        updateStore store h.ID { h with VerifiedIPs := true })
    else .error .integrity
  else .ok (h, forward, updateStore store h.ID h)

/-- `ImportAndVerifyHubInfo` from src/docks/hub_import.go lines 18-99:
reject when neither announcement nor status is supplied, apply the
announcement (if given), apply the status (if given) to its result,
combine the forward flags with `or`, then check, verify and persist.
Apply failures are wrapped in `ErrInternalError` by the source. -/
def ImportAndVerifyHubInfo (store : HubStore) (publicHub verifyOk : Bool)
    (hubID : String) (announcementData : Option AnnData)
    (statusData : Option StatusData) : Except TermErr (Hub × Bool × HubStore) :=
  match announcementData, statusData with
  | none, none => .error .internalError
  | some ann, none =>
    match ApplyAnnouncement store ann with
    | (h, fwd) => finishImport store publicHub verifyOk hubID h fwd
  | none, some st =>
    match ApplyStatus store none st with
    | .error _ => .error .internalError
    | .ok (h, fwd) => finishImport store publicHub verifyOk hubID h fwd
  | some ann, some st =>
    match ApplyAnnouncement store ann with
    | (h0, fwd0) =>
      match ApplyStatus store (some h0) st with
      | .error _ => .error .internalError
      | .ok (h, fwd1) => finishImport store publicHub verifyOk hubID h (fwd0 || fwd1)

theorem applyAnnouncement_fields (store : HubStore) (ann : AnnData) (h : Hub) (f : Bool)
    (hwell : ∀ k hb, store k = some hb → hb.ID = k)
    (heq : ApplyAnnouncement store ann = (h, f)) :
    h.Info = some ann ∧ h.ID = ann.ID := by
  unfold ApplyAnnouncement at heq
  cases hlook : store ann.ID with
  | none =>
    rw [hlook] at heq
    simp only at heq
    cases heq
    exact ⟨rfl, rfl⟩
  | some existing =>
    rw [hlook] at heq
    simp only at heq
    by_cases hinfo : existing.Info = some ann
    · rw [if_pos hinfo] at heq
      cases heq
      exact ⟨hinfo, hwell _ _ hlook⟩
    · rw [if_neg hinfo] at heq
      cases heq
      exact ⟨rfl, hwell ann.ID existing hlook⟩

theorem applyStatus_ok_fields (store : HubStore) (h0 : Option Hub) (st : StatusData)
    (h : Hub) (f : Bool)
    (hwell : ∀ k hb, store k = some hb → hb.ID = k)
    (heq : ApplyStatus store h0 st = .ok (h, f)) :
    h.Status = some st
    ∧ (∀ hb, h0 = some hb → h.ID = hb.ID ∧ h.Info = hb.Info ∧ h.VerifiedIPs = hb.VerifiedIPs)
    ∧ (h0 = none → h.ID = st.ID) := by
  unfold ApplyStatus at heq
  cases h0 with
  | some hb =>
    simp only at heq
    by_cases hs : hb.Status = some st
    · rw [if_pos hs] at heq
      cases heq
      exact ⟨hs, fun hb' hEq => by cases hEq; exact ⟨rfl, rfl, rfl⟩,
        fun hEq => Option.noConfusion hEq⟩
    · rw [if_neg hs] at heq
      cases hold : hb.Status with
      | none =>
        rw [hold] at heq
        simp only at heq
        cases heq
        exact ⟨rfl, fun hb' hEq => by cases hEq; exact ⟨rfl, rfl, rfl⟩,
          fun hEq => Option.noConfusion hEq⟩
      | some old =>
        rw [hold] at heq
        simp only at heq
        cases hchk : applyStatusSeqCheck old.Timestamp st.Timestamp with
        | error e => rw [hchk] at heq; cases heq
        | ok u =>
          rw [hchk] at heq
          simp only at heq
          cases heq
          exact ⟨rfl, fun hb' hEq => by cases hEq; exact ⟨rfl, rfl, rfl⟩,
            fun hEq => Option.noConfusion hEq⟩
  | none =>
    simp only at heq
    cases hlook : store st.ID with
    | none =>
      rw [hlook] at heq
      simp only at heq
      cases heq
      exact ⟨rfl, fun hb' hEq => Option.noConfusion hEq, fun _ => rfl⟩
    | some hb =>
      rw [hlook] at heq
      simp only at heq
      by_cases hs : hb.Status = some st
      · rw [if_pos hs] at heq
        cases heq
        exact ⟨hs, fun hb' hEq => Option.noConfusion hEq, fun _ => hwell _ _ hlook⟩
      · rw [if_neg hs] at heq
        cases hold : hb.Status with
        | none =>
          rw [hold] at heq
          simp only at heq
          cases heq
          exact ⟨rfl, fun hb' hEq => Option.noConfusion hEq, fun _ => hwell st.ID hb hlook⟩
        | some old =>
          rw [hold] at heq
          simp only at heq
          cases hchk : applyStatusSeqCheck old.Timestamp st.Timestamp with
          | error e => rw [hchk] at heq; cases heq
          | ok u =>
            rw [hchk] at heq
            simp only at heq
            cases heq
            exact ⟨rfl, fun hb' hEq => Option.noConfusion hEq, fun _ => hwell st.ID hb hlook⟩

theorem applyAnnouncement_stable (store : HubStore) (ann : AnnData) (h : Hub)
    (hlook : store ann.ID = some h) (hinfo : h.Info = some ann) :
    ApplyAnnouncement store ann = (h, false) := by
  unfold ApplyAnnouncement
  rw [hlook]
  simp only
  rw [if_pos hinfo]

theorem applyStatus_stable (store : HubStore) (h : Hub) (st : StatusData)
    (hst : h.Status = some st) :
    ApplyStatus store (some h) st = .ok (h, false) := by
  unfold ApplyStatus
  simp only
  rw [if_pos hst]

theorem finishImport_ok (store : HubStore) (pub vOk : Bool) (hubID : String)
    (h : Hub) (f : Bool) (h1 : Hub) (f1 : Bool) (store1 : HubStore)
    (hfin : finishImport store pub vOk hubID h f = .ok (h1, f1, store1)) :
    f1 = f ∧ h1.ID = h.ID ∧ h1.Info = h.Info ∧ h1.Status = h.Status
    ∧ store1 = updateStore store h1.ID h1
    ∧ ¬(hubID ≠ "" ∧ h1.ID ≠ hubID)
    ∧ ¬(¬h1.VerifiedIPs ∧ pub) := by
  unfold finishImport at hfin
  by_cases hid : hubID ≠ "" ∧ h.ID ≠ hubID
  · rw [if_pos hid] at hfin
    cases hfin
  · rw [if_neg hid] at hfin
    by_cases hver : ¬h.VerifiedIPs ∧ pub
    · rw [if_pos hver] at hfin
      cases vOk with
      | false => simp at hfin
      | true =>
        simp only [if_pos rfl] at hfin
        cases hfin
        refine ⟨rfl, rfl, rfl, rfl, rfl, hid, ?_⟩
        simp
    · rw [if_neg hver] at hfin
      cases hfin
      exact ⟨rfl, rfl, rfl, rfl, rfl, hid, hver⟩

theorem finishImport_second (store1 : HubStore) (pub vOk : Bool) (hubID : String)
    (h1 : Hub)
    (hid : ¬(hubID ≠ "" ∧ h1.ID ≠ hubID))
    (hver : ¬(¬h1.VerifiedIPs ∧ pub))
    (hstore : store1 h1.ID = some h1) :
    finishImport store1 pub vOk hubID h1 false = .ok (h1, false, store1) := by
  unfold finishImport
  rw [if_neg hid, if_neg hver]
  have : updateStore store1 h1.ID h1 = store1 := by
    funext k
    unfold updateStore
    by_cases hk : k = h1.ID
    · rw [if_pos hk, hk, hstore]
    · rw [if_neg hk]
  rw [this]

/-- **C6.** Calling `ImportAndVerifyHubInfo` twice with the same
announcement and status data returns the same hub both times and
`forward = false` on the second (repeated) call; `forward = true` is
possible only on the first call (the witness exhibits a first call with
`forward = true`). -/
theorem importAndVerifyHubInfo_idempotent (store : HubStore) (publicHub verifyOk : Bool)
    (hubID : String) (announcementData : Option AnnData) (statusData : Option StatusData)
    (h1 : Hub) (f1 : Bool) (store1 : HubStore)
    (hwell : ∀ k hb, store k = some hb → hb.ID = k)
    (hfirst : ImportAndVerifyHubInfo store publicHub verifyOk hubID announcementData
      statusData = .ok (h1, f1, store1)) :
    ImportAndVerifyHubInfo store1 publicHub verifyOk hubID announcementData statusData
      = .ok (h1, false, store1) := by
  have hlookup : ∀ (st2 : HubStore) (hh : Hub),
      st2 = updateStore store hh.ID hh → st2 hh.ID = some hh := by
    intro st2 hh hEq
    rw [hEq]
    unfold updateStore
    rw [if_pos rfl]
  cases announcementData with
  | none =>
    cases statusData with
    | none => cases hfirst
    | some st =>
      unfold ImportAndVerifyHubInfo at hfirst ⊢
      simp only at hfirst ⊢
      cases happ : ApplyStatus store none st with
      | error e => rw [happ] at hfirst; cases hfirst
      | ok pr =>
        obtain ⟨hS, fS⟩ := pr
        rw [happ] at hfirst
        simp only at hfirst
        obtain ⟨hsSt, _, hsID⟩ := applyStatus_ok_fields store none st hS fS hwell happ
        obtain ⟨hf1, hid1, hinfo1, hstat1, hst1, hidchk, hverchk⟩ :=
          finishImport_ok store publicHub verifyOk hubID hS fS h1 f1 store1 hfirst
        have hlook1 : store1 h1.ID = some h1 := hlookup store1 h1 hst1
        have hbase : store1 st.ID = some h1 := by
          rw [← hsID rfl, ← hid1]
          exact hlook1
        have happ2 : ApplyStatus store1 none st = .ok (h1, false) := by
          unfold ApplyStatus
          simp only
          rw [hbase]
          rw [if_pos (by rw [hstat1, hsSt])]
        rw [happ2]
        simp only
        exact finishImport_second store1 publicHub verifyOk hubID h1 hidchk hverchk hlook1
  | some ann =>
    cases statusData with
    | none =>
      unfold ImportAndVerifyHubInfo at hfirst ⊢
      simp only at hfirst ⊢
      cases happ : ApplyAnnouncement store ann with
      | mk hA fA =>
        rw [happ] at hfirst
        simp only at hfirst
        obtain ⟨haInfo, haID⟩ := applyAnnouncement_fields store ann hA fA hwell happ
        obtain ⟨hf1, hid1, hinfo1, hstat1, hst1, hidchk, hverchk⟩ :=
          finishImport_ok store publicHub verifyOk hubID hA fA h1 f1 store1 hfirst
        have hlook1 : store1 h1.ID = some h1 := hlookup store1 h1 hst1
        have hlookAnn : store1 ann.ID = some h1 := by
          rw [← haID, ← hid1]
          exact hlook1
        have happ2 : ApplyAnnouncement store1 ann = (h1, false) :=
          applyAnnouncement_stable store1 ann h1 hlookAnn (by rw [hinfo1, haInfo])
        rw [happ2]
        simp only
        exact finishImport_second store1 publicHub verifyOk hubID h1 hidchk hverchk hlook1
    | some st =>
      unfold ImportAndVerifyHubInfo at hfirst ⊢
      simp only at hfirst ⊢
      cases happ : ApplyAnnouncement store ann with
      | mk hA fA =>
        rw [happ] at hfirst
        simp only at hfirst
        cases happS : ApplyStatus store (some hA) st with
        | error e => rw [happS] at hfirst; cases hfirst
        | ok pr =>
          obtain ⟨hS, fS⟩ := pr
          rw [happS] at hfirst
          simp only at hfirst
          obtain ⟨haInfo, haID⟩ := applyAnnouncement_fields store ann hA fA hwell happ
          obtain ⟨hsSt, hsPres, _⟩ := applyStatus_ok_fields store (some hA) st hS fS hwell happS
          obtain ⟨hsID, hsInfo, _⟩ := hsPres hA rfl
          obtain ⟨hf1, hid1, hinfo1, hstat1, hst1, hidchk, hverchk⟩ :=
            finishImport_ok store publicHub verifyOk hubID hS (fA || fS) h1 f1 store1 hfirst
          have hlook1 : store1 h1.ID = some h1 := hlookup store1 h1 hst1
          have hlookAnn : store1 ann.ID = some h1 := by
            rw [← haID, ← hsID, ← hid1]
            exact hlook1
          have happ2 : ApplyAnnouncement store1 ann = (h1, false) :=
            applyAnnouncement_stable store1 ann h1 hlookAnn (by rw [hinfo1, hsInfo, haInfo])
          rw [happ2]
          simp only
          have happS2 : ApplyStatus store1 (some h1) st = .ok (h1, false) :=
            applyStatus_stable store1 h1 st (by rw [hstat1, hsSt])
          rw [happS2]
          simp only [Bool.false_or]
          exact finishImport_second store1 publicHub verifyOk hubID h1 hidchk hverchk hlook1

/-- Concrete announcement for the C6 witness. -/
def annW : AnnData := ⟨"A", 1, []⟩

/-- Concrete status for the C6 witness. -/
def stW : StatusData := ⟨"A", 1, []⟩

/-- The hub produced by importing `annW` and `stW` into an empty store. -/
def hubW : Hub := ⟨"A", some annW, some stW, false⟩

/-- The empty hub store. -/
def storeW : HubStore := fun _ => none

/-- The store after the first import of `annW`/`stW`. -/
def storeW1 : HubStore := updateStore storeW "A" hubW

/-- Witness for C6: after a first import into an empty store (which
returns `forward = true`, as recorded in the `hfirst` argument below),
the repeated import returns the same hub with `forward = false`. -/
theorem importAndVerifyHubInfo_idempotent_witness :
    ImportAndVerifyHubInfo storeW1 false true "" (some annW) (some stW)
      = .ok (hubW, false, storeW1) :=
  importAndVerifyHubInfo_idempotent storeW false true "" (some annW) (some stW)
    hubW true storeW1 (fun _ _ h => Option.noConfusion h) rfl

/-! ## Navigator: lane reconciliation (src/navigator/routing-profiles.go,
`updateHub` step 3 and `updateHubLane`)

The map is embedded keyed by hub ID (`m.all : map[string]*Pin`); the
source maintains `m.all[id].Hub.ID = id`, so the Go accesses
`peer.Hub.ID` / `pin.Hub.ID` are rendered as the keys `lane.ID` /
`pinID` through which the pins were fetched.  Only the parts of
`updateHub` that touch lanes (mark inactive, `updateHubLane` per
advertised lane, remove inactive) are embedded: steps 1, 2 and 4 update
cost, state bits and reachability and do not touch `ConnectedTo`.
Latencies are nanoseconds (`time.Duration`), capacities bit/s (Go
`int`); the `Cost` field of a lane (computed by `CalculateLaneCost`,
which is not under src/) is omitted, as no claim concerns it and it
does not influence lane existence, latency or capacity. -/

/-- `hub.Lane`: a lane advertised in a hub's Status. -/
structure HubLane where
  ID : String
  Latency : Int
  Capacity : Int
  deriving DecidableEq, Repr

/-- `minUnconfirmedLatency = 10 * time.Millisecond`, in nanoseconds
(src/navigator/routing-profiles.go line 430). -/
def minUnconfirmedLatency : Int := 10000000

/-- `maxUnconfirmedCapacity = 100000000` (100 Mbit/s)
(src/navigator/routing-profiles.go line 431). -/
def maxUnconfirmedCapacity : Int := 100000000

/-- `navigator.Lane`: a reconciled lane on the Map.  The `Pin` pointer
is rendered as the peer's hub ID. -/
structure NavLane where
  peer : String
  Latency : Int
  Capacity : Int
  active : Bool
  deriving DecidableEq, Repr

/-- `navigator.Pin` reduced to what lane reconciliation reads and
writes: the hub ID, the advertised lanes of the hub's status, and the
`ConnectedTo` map. -/
structure Pin where
  ID : String
  statusLanes : List HubLane
  ConnectedTo : String → Option NavLane

/-- `m.all`, the map from hub ID to Pin. -/
def MapAll : Type := String → Option Pin

/-- Write a pin into the map. -/
def mapSet (m : MapAll) (id : String) (p : Pin) : MapAll :=
  fun k => if k = id then some p else m k

/-- `delete(ConnectedTo, id)`. -/
def delLane (ct : String → Option NavLane) (id : String) : String → Option NavLane :=
  fun k => if k = id then none else ct k

/-- `ConnectedTo[id] = l`. -/
def setLane (ct : String → Option NavLane) (id : String) (l : NavLane) :
    String → Option NavLane :=
  fun k => if k = id then some l else ct k

/-- "Mark all existing Lanes as inactive" (updateHub step 3, first
loop). -/
def markLanesInactive (p : Pin) : Pin :=
  { p with ConnectedTo := fun k =>
      match p.ConnectedTo k with
      | some l => some { l with active := false }
      | none => none }

/-- The peer-lane search of `updateHubLane`: the first lane of the
peer's status whose ID is the pin's. -/
def findPeerLane (lanes : List HubLane) (pinID : String) : Option HubLane :=
  lanes.find? (fun l => l.ID == pinID)

/-- The combined latency of `updateHubLane`: the greater value, raised
to `minUnconfirmedLatency` when at least one side has no data. -/
def combinedLatency (laneLatency peerLatency : Int) : Int :=
  let c := if peerLatency > laneLatency then peerLatency else laneLatency
  if (laneLatency = 0 ∨ peerLatency = 0) ∧ c < minUnconfirmedLatency then
    minUnconfirmedLatency
  else c

/-- The combined capacity of `updateHubLane`: the lesser existing
value, capped at `maxUnconfirmedCapacity` when at least one side has no
data. -/
def combinedCapacity (laneCapacity peerCapacity : Int) : Int :=
  let c :=
    if laneCapacity = 0 ∨ (peerCapacity > 0 ∧ peerCapacity < laneCapacity) then peerCapacity
    else laneCapacity
  if (laneCapacity = 0 ∨ peerCapacity = 0) ∧ c > maxUnconfirmedCapacity then
    maxUnconfirmedCapacity
  else c

/-- The lane value `updateHubLane` writes to both pins: combined
latency and capacity, active. -/
def combinedNavLane (peerID : String) (lane peerLane : HubLane) : NavLane :=
  ⟨peerID, combinedLatency lane.Latency peerLane.Latency,
   combinedCapacity lane.Capacity peerLane.Capacity, true⟩

/-- The body of `Map.updateHubLane` (src/navigator/routing-profiles.go
lines 440-514) once `pin` and `peer` are in hand: look up the
corresponding lane of the peer; if the peer does not advertise one,
abandon (delete) the pin's lane to the peer; otherwise combine latency
and capacity and write the active lane to both pins.  (The trailing
reachability propagation does not touch `ConnectedTo` and is
omitted.) -/
def updateHubLaneCore (m : MapAll) (pinID : String) (lane : HubLane) (pin peer : Pin) :
    MapAll :=
  match findPeerLane peer.statusLanes pinID with
  | none =>
    mapSet m pinID { pin with ConnectedTo := delLane pin.ConnectedTo lane.ID }
  | some peerLane =>
    mapSet
      (mapSet m pinID
        { pin with
          ConnectedTo := setLane pin.ConnectedTo lane.ID (combinedNavLane lane.ID lane peerLane) })
      lane.ID
      { peer with
        ConnectedTo := setLane peer.ConnectedTo pinID (combinedNavLane pinID lane peerLane) }

/-- `Map.updateHubLane`: fetch the two pins (the caller guarantees both
are on the map) and reconcile their lane pair. -/
def updateHubLane (m : MapAll) (pinID : String) (lane : HubLane) : MapAll :=
  match m pinID, m lane.ID with
  | some pin, some peer => updateHubLaneCore m pinID lane pin peer
  | _, _ => m

/-- One iteration of the per-advertised-lane loop of updateHub step 3:
skip lanes to itself ("Check if this is a Lane to itself"), skip peers
not yet on the map ("We need to wait for peer to be added to the Map"),
otherwise `updateHubLane`. -/
def updateLanesStep (pinID : String) (acc : MapAll) (lane : HubLane) : MapAll :=
  if lane.ID = pinID then acc
  else
    match acc lane.ID with
    | none => acc
    | some _ => updateHubLane acc pinID lane

/-- The per-advertised-lane loop of updateHub step 3. -/
def updateLanesFold (m : MapAll) (pinID : String) (lanes : List HubLane) : MapAll :=
  lanes.foldl (updateLanesStep pinID) m

/-- The pin with its inactive lanes dropped ("Remove Lane from this
Pin"). -/
def cleanPin (p : Pin) : Pin :=
  { p with ConnectedTo := fun k =>
      match p.ConnectedTo k with
      | some l => if l.active then some l else none
      | none => none }

/-- A peer with its lane back to the pin deleted ("Remove Lane from
peer"). -/
def dropLaneTo (peer : Pin) (pinID : String) : Pin :=
  { peer with ConnectedTo := delLane peer.ConnectedTo pinID }

/-- "Remove all inactive/abandoned Lanes from both Pins" (updateHub
step 3, last loop), given the pin: drop the pin's inactive lanes and,
for each dropped lane, delete the peer's lane back to the pin.  The Go
loop's per-entry effects touch disjoint keys, so it is rendered
pointwise. -/
def removeInactiveCore (m : MapAll) (pinID : String) (pin : Pin) : MapAll :=
  fun k =>
    if k = pinID then some (cleanPin pin)
    else
      match m k with
      | none => none
      | some peer =>
        match pin.ConnectedTo k with
        | some l =>
          if l.active then some peer
          else some (dropLaneTo peer pinID)
        | none => some peer

/-- "Remove all inactive/abandoned Lanes from both Pins": fetch the pin
and clean up. -/
def removeInactiveLanes (m : MapAll) (pinID : String) : MapAll :=
  match m pinID with
  | none => m
  | some pin => removeInactiveCore m pinID pin

/-- Step 3 of `Map.updateHub` (src/navigator/routing-profiles.go lines
355-395): mark the pin's lanes inactive, reconcile each advertised
lane, then remove the lanes that stayed inactive. -/
def updateHubLanes (m : MapAll) (pinID : String) : MapAll :=
  match m pinID with
  | none => m
  | some pin0 =>
    removeInactiveLanes
      (updateLanesFold (mapSet m pinID (markLanesInactive pin0)) pinID pin0.statusLanes)
      pinID

/-- The last lane of `lanes` advertised to `q` (the per-key effect of
the reconciliation loop: a later advertised lane overwrites an earlier
one to the same peer). -/
def lastAdv (q : String) : List HubLane → Option HubLane
  | [] => none
  | lane :: rest =>
    match lastAdv q rest with
    | some l => some l
    | none => if lane.ID = q then some lane else none

/-- The reconciled lane the pin ends up holding toward `q`, as a
function of its previous entry, the last lane it advertises to `q`, and
the peer's advertised lane back. -/
def expectedPinLane (q : String) (prev : Option NavLane) (adv peerAdv : Option HubLane) :
    Option NavLane :=
  match adv, peerAdv with
  | none, _ => prev
  | some _, none => none
  | some lane, some peerLane => some (combinedNavLane q lane peerLane)

/-- The lane the peer ends up holding back toward the pin after the
reconciliation loop (before the inactive-lane removal). -/
def expectedPeerLane (pinID : String) (prev : Option NavLane) (adv peerAdv : Option HubLane) :
    Option NavLane :=
  match adv, peerAdv with
  | some lane, some peerLane => some (combinedNavLane pinID lane peerLane)
  | _, _ => prev

theorem mapSet_self (m : MapAll) (id : String) (p : Pin) : mapSet m id p id = some p := by
  unfold mapSet
  rw [if_pos rfl]

theorem mapSet_ne (m : MapAll) (id : String) (p : Pin) (k : String) (h : ¬ k = id) :
    mapSet m id p k = m k := by
  unfold mapSet
  rw [if_neg h]

theorem delLane_self (ct : String → Option NavLane) (id : String) : delLane ct id id = none := by
  unfold delLane
  rw [if_pos rfl]

theorem delLane_ne (ct : String → Option NavLane) (id k : String) (h : ¬ k = id) :
    delLane ct id k = ct k := by
  unfold delLane
  rw [if_neg h]

theorem setLane_self (ct : String → Option NavLane) (id : String) (l : NavLane) :
    setLane ct id l id = some l := by
  unfold setLane
  rw [if_pos rfl]

theorem setLane_ne (ct : String → Option NavLane) (id : String) (l : NavLane) (k : String)
    (h : ¬ k = id) : setLane ct id l k = ct k := by
  unfold setLane
  rw [if_neg h]

theorem lastAdv_cons_ne (q : String) (lane : HubLane) (rest : List HubLane)
    (h : ¬ lane.ID = q) : lastAdv q (lane :: rest) = lastAdv q rest := by
  show (match lastAdv q rest with
        | some l => some l
        | none => if lane.ID = q then some lane else none) = lastAdv q rest
  cases lastAdv q rest with
  | some l => rfl
  | none => simp [h]

theorem lastAdv_cons_of_rest (q : String) (lane : HubLane) (rest : List HubLane)
    (l : HubLane) (h : lastAdv q rest = some l) : lastAdv q (lane :: rest) = some l := by
  show (match lastAdv q rest with
        | some l => some l
        | none => if lane.ID = q then some lane else none) = some l
  rw [h]

theorem lastAdv_cons_self (q : String) (lane : HubLane) (rest : List HubLane)
    (hid : lane.ID = q) (h : lastAdv q rest = none) :
    lastAdv q (lane :: rest) = some lane := by
  show (match lastAdv q rest with
        | some l => some l
        | none => if lane.ID = q then some lane else none) = some lane
  rw [h]
  simp [hid]

theorem lastAdv_isSome_iff (q : String) (lanes : List HubLane) :
    (lastAdv q lanes).isSome ↔ ∃ lane ∈ lanes, lane.ID = q := by
  induction lanes with
  | nil => simp [lastAdv]
  | cons lane rest ih =>
    by_cases hid : lane.ID = q
    · cases hrest : lastAdv q rest with
      | some l =>
        rw [lastAdv_cons_of_rest q lane rest l hrest]
        simp only [Option.isSome_some, true_iff]
        rw [hrest] at ih
        simp only [Option.isSome_some, true_iff] at ih
        obtain ⟨l', hl', hl'q⟩ := ih
        exact ⟨l', List.mem_cons_of_mem lane hl', hl'q⟩
      | none =>
        rw [lastAdv_cons_self q lane rest hid hrest]
        simp only [Option.isSome_some, true_iff]
        exact ⟨lane, List.mem_cons_self lane rest, hid⟩
    · rw [lastAdv_cons_ne q lane rest hid, ih]
      constructor
      · rintro ⟨l, hl, hlq⟩
        exact ⟨l, List.mem_cons_of_mem lane hl, hlq⟩
      · rintro ⟨l, hl, hlq⟩
        rcases List.mem_cons.mp hl with h | h
        · exact absurd (h ▸ hlq) hid
        · exact ⟨l, h, hlq⟩

theorem findPeerLane_isSome_iff (lanes : List HubLane) (pinID : String) :
    (findPeerLane lanes pinID).isSome ↔ ∃ lane ∈ lanes, lane.ID = pinID := by
  unfold findPeerLane
  rw [List.find?_isSome]
  constructor
  · rintro ⟨l, hl, hlq⟩
    exact ⟨l, hl, by simpa using hlq⟩
  · rintro ⟨l, hl, hlq⟩
    exact ⟨l, hl, by simpa using hlq⟩

theorem expectedPinLane_none (q : String) (prev : Option NavLane) (peerAdv : Option HubLane) :
    expectedPinLane q prev none peerAdv = prev := by
  cases peerAdv <;> rfl

theorem expectedPinLane_del (q : String) (prev : Option NavLane) (lane : HubLane) :
    expectedPinLane q prev (some lane) none = none := rfl

theorem expectedPinLane_set (q : String) (prev : Option NavLane) (lane peerLane : HubLane) :
    expectedPinLane q prev (some lane) (some peerLane)
      = some (combinedNavLane q lane peerLane) := rfl

theorem expectedPeerLane_none (pinID : String) (prev : Option NavLane)
    (peerAdv : Option HubLane) : expectedPeerLane pinID prev none peerAdv = prev := by
  cases peerAdv <;> rfl

theorem expectedPeerLane_del (pinID : String) (prev : Option NavLane) (lane : HubLane) :
    expectedPeerLane pinID prev (some lane) none = prev := rfl

theorem expectedPeerLane_set (pinID : String) (prev : Option NavLane) (lane peerLane : HubLane) :
    expectedPeerLane pinID prev (some lane) (some peerLane)
      = some (combinedNavLane pinID lane peerLane) := rfl

theorem updateHubLane_eq (m : MapAll) (pinID : String) (lane : HubLane) (pin peer : Pin)
    (hpc : m pinID = some pin) (hml : m lane.ID = some peer) :
    updateHubLane m pinID lane = updateHubLaneCore m pinID lane pin peer := by
  unfold updateHubLane
  rw [hpc, hml]

theorem updateHubLaneCore_none (m : MapAll) (pinID : String) (lane : HubLane)
    (pin peer : Pin) (hfp : findPeerLane peer.statusLanes pinID = none) :
    updateHubLaneCore m pinID lane pin peer
      = mapSet m pinID { pin with ConnectedTo := delLane pin.ConnectedTo lane.ID } := by
  unfold updateHubLaneCore
  rw [hfp]

theorem updateHubLaneCore_some (m : MapAll) (pinID : String) (lane : HubLane)
    (pin peer : Pin) (peerLane : HubLane)
    (hfp : findPeerLane peer.statusLanes pinID = some peerLane) :
    updateHubLaneCore m pinID lane pin peer
      = mapSet
          (mapSet m pinID
            { pin with
              ConnectedTo := setLane pin.ConnectedTo lane.ID
                (combinedNavLane lane.ID lane peerLane) })
          lane.ID
          { peer with
            ConnectedTo := setLane peer.ConnectedTo pinID
              (combinedNavLane pinID lane peerLane) } := by
  unfold updateHubLaneCore
  rw [hfp]

theorem updateLanesStep_self (pinID : String) (m : MapAll) (lane : HubLane)
    (h : lane.ID = pinID) : updateLanesStep pinID m lane = m := by
  unfold updateLanesStep
  rw [if_pos h]

theorem updateLanesStep_absent (pinID : String) (m : MapAll) (lane : HubLane)
    (h1 : ¬ lane.ID = pinID) (h2 : m lane.ID = none) :
    updateLanesStep pinID m lane = m := by
  unfold updateLanesStep
  rw [if_neg h1, h2]

theorem updateLanesStep_present (pinID : String) (m : MapAll) (lane : HubLane) (p : Pin)
    (h1 : ¬ lane.ID = pinID) (h2 : m lane.ID = some p) :
    updateLanesStep pinID m lane = updateHubLane m pinID lane := by
  unfold updateLanesStep
  rw [if_neg h1, h2]

theorem updateLanesFold_cons (m : MapAll) (pinID : String) (lane : HubLane)
    (rest : List HubLane) :
    updateLanesFold m pinID (lane :: rest)
      = updateLanesFold (updateLanesStep pinID m lane) pinID rest := rfl

/-- Characterization of the reconciliation loop for one peer `q`: after
folding over the advertised lanes, the pin's entry toward `q` and the
peer's entry back are determined by the last lane advertised to `q` and
by whether the peer advertises the pin; the peer's status lanes are
untouched. -/
theorem updateLanesFold_char (pinID q : String) (hq : ¬ q = pinID) :
    ∀ (lanes : List HubLane) (m : MapAll) (pc prc : Pin),
      m pinID = some pc → m q = some prc →
      ∃ pc' prc',
        updateLanesFold m pinID lanes pinID = some pc'
        ∧ updateLanesFold m pinID lanes q = some prc'
        ∧ prc'.statusLanes = prc.statusLanes
        ∧ pc'.ConnectedTo q
            = expectedPinLane q (pc.ConnectedTo q) (lastAdv q lanes)
                (findPeerLane prc.statusLanes pinID)
        ∧ prc'.ConnectedTo pinID
            = expectedPeerLane pinID (prc.ConnectedTo pinID) (lastAdv q lanes)
                (findPeerLane prc.statusLanes pinID) := by
  intro lanes
  induction lanes with
  | nil =>
    intro m pc prc hpc hprc
    refine ⟨pc, prc, hpc, hprc, rfl, ?_, ?_⟩
    · rw [show lastAdv q [] = none from rfl, expectedPinLane_none]
    · rw [show lastAdv q [] = none from rfl, expectedPeerLane_none]
  | cons lane rest ih =>
    intro m pc prc hpc hprc
    rw [updateLanesFold_cons]
    by_cases hpin : lane.ID = pinID
    · rw [updateLanesStep_self pinID m lane hpin,
          lastAdv_cons_ne q lane rest (fun h => hq (by rw [← h, hpin]))]
      exact ih m pc prc hpc hprc
    · by_cases hlq : lane.ID = q
      · -- a lane advertised to q itself
        have hml : m lane.ID = some prc := by rw [hlq]; exact hprc
        rw [updateLanesStep_present pinID m lane prc hpin hml,
            updateHubLane_eq m pinID lane pc prc hpc hml]
        cases hfp : findPeerLane prc.statusLanes pinID with
        | none =>
          rw [updateHubLaneCore_none m pinID lane pc prc hfp]
          obtain ⟨pc', prc', h1, h2, h3, h4, h5⟩ :=
            ih (mapSet m pinID { pc with ConnectedTo := delLane pc.ConnectedTo lane.ID })
              { pc with ConnectedTo := delLane pc.ConnectedTo lane.ID } prc
              (mapSet_self _ _ _)
              (by rw [mapSet_ne _ _ _ _ hq]; exact hprc)
          have hdel : delLane pc.ConnectedTo lane.ID q = none := by
            rw [hlq]
            exact delLane_self _ _
          refine ⟨pc', prc', h1, h2, h3, ?_, ?_⟩
          · cases hrest : lastAdv q rest with
            | some l =>
              rw [lastAdv_cons_of_rest q lane rest l hrest, expectedPinLane_del]
              rw [hrest, hfp] at h4
              rw [h4, expectedPinLane_del]
            | none =>
              rw [lastAdv_cons_self q lane rest hlq hrest, expectedPinLane_del]
              rw [hrest, hfp] at h4
              rw [h4, expectedPinLane_none]
              exact hdel
          · cases hrest : lastAdv q rest with
            | some l =>
              rw [lastAdv_cons_of_rest q lane rest l hrest, expectedPeerLane_del]
              rw [hrest, hfp] at h5
              rw [h5, expectedPeerLane_del]
            | none =>
              rw [lastAdv_cons_self q lane rest hlq hrest, expectedPeerLane_del]
              rw [hrest, hfp] at h5
              rw [h5, expectedPeerLane_none]
        | some peerLane =>
          rw [updateHubLaneCore_some m pinID lane pc prc peerLane hfp]
          have hqlane : q = lane.ID := hlq.symm
          obtain ⟨pc', prc', h1, h2, h3, h4, h5⟩ :=
            ih (mapSet
                  (mapSet m pinID
                    { pc with
                      ConnectedTo := setLane pc.ConnectedTo lane.ID
                        (combinedNavLane lane.ID lane peerLane) })
                  lane.ID
                  { prc with
                    ConnectedTo := setLane prc.ConnectedTo pinID
                      (combinedNavLane pinID lane peerLane) })
              { pc with
                ConnectedTo := setLane pc.ConnectedTo lane.ID
                  (combinedNavLane lane.ID lane peerLane) }
              { prc with
                ConnectedTo := setLane prc.ConnectedTo pinID
                  (combinedNavLane pinID lane peerLane) }
              (by rw [mapSet_ne _ _ _ _ (fun h => hpin h.symm)]; exact mapSet_self _ _ _)
              (by rw [hqlane]; exact mapSet_self _ _ _)
          have hfp' : findPeerLane
              ({ prc with
                 ConnectedTo := setLane prc.ConnectedTo pinID
                   (combinedNavLane pinID lane peerLane) } : Pin).statusLanes pinID
              = some peerLane := hfp
          have hsetq : setLane pc.ConnectedTo lane.ID (combinedNavLane lane.ID lane peerLane) q
              = some (combinedNavLane q lane peerLane) := by
            rw [hqlane, setLane_self]
          refine ⟨pc', prc', h1, h2, h3, ?_, ?_⟩
          · cases hrest : lastAdv q rest with
            | some l =>
              rw [lastAdv_cons_of_rest q lane rest l hrest, expectedPinLane_set]
              rw [hrest, hfp'] at h4
              rw [h4, expectedPinLane_set]
            | none =>
              rw [lastAdv_cons_self q lane rest hlq hrest, expectedPinLane_set]
              rw [hrest, hfp'] at h4
              rw [h4, expectedPinLane_none]
              exact hsetq
          · cases hrest : lastAdv q rest with
            | some l =>
              rw [lastAdv_cons_of_rest q lane rest l hrest, expectedPeerLane_set]
              rw [hrest, hfp'] at h5
              rw [h5, expectedPeerLane_set]
            | none =>
              rw [lastAdv_cons_self q lane rest hlq hrest, expectedPeerLane_set]
              rw [hrest, hfp'] at h5
              rw [h5, expectedPeerLane_none]
              exact setLane_self _ _ _
      · -- a lane to some third peer
        have hlast := lastAdv_cons_ne q lane rest hlq
        cases hml : m lane.ID with
        | none =>
          rw [updateLanesStep_absent pinID m lane hpin hml, hlast]
          exact ih m pc prc hpc hprc
        | some peerR =>
          rw [updateLanesStep_present pinID m lane peerR hpin hml,
              updateHubLane_eq m pinID lane pc peerR hpc hml, hlast]
          cases hfpR : findPeerLane peerR.statusLanes pinID with
          | none =>
            rw [updateHubLaneCore_none m pinID lane pc peerR hfpR]
            obtain ⟨pc', prc', h1, h2, h3, h4, h5⟩ :=
              ih (mapSet m pinID { pc with ConnectedTo := delLane pc.ConnectedTo lane.ID })
                { pc with ConnectedTo := delLane pc.ConnectedTo lane.ID } prc
                (mapSet_self _ _ _)
                (by rw [mapSet_ne _ _ _ _ hq]; exact hprc)
            have hdel : delLane pc.ConnectedTo lane.ID q = pc.ConnectedTo q :=
              delLane_ne _ _ _ (fun h => hlq h.symm)
            refine ⟨pc', prc', h1, h2, h3, ?_, h5⟩
            rw [h4]
            show expectedPinLane q (delLane pc.ConnectedTo lane.ID q) (lastAdv q rest)
                (findPeerLane prc.statusLanes pinID) = _
            rw [hdel]
          | some peerLaneR =>
            rw [updateHubLaneCore_some m pinID lane pc peerR peerLaneR hfpR]
            obtain ⟨pc', prc', h1, h2, h3, h4, h5⟩ :=
              ih (mapSet
                    (mapSet m pinID
                      { pc with
                        ConnectedTo := setLane pc.ConnectedTo lane.ID
                          (combinedNavLane lane.ID lane peerLaneR) })
                    lane.ID
                    { peerR with
                      ConnectedTo := setLane peerR.ConnectedTo pinID
                        (combinedNavLane pinID lane peerLaneR) })
                { pc with
                  ConnectedTo := setLane pc.ConnectedTo lane.ID
                    (combinedNavLane lane.ID lane peerLaneR) }
                prc
                (by rw [mapSet_ne _ _ _ _ (fun h => hpin h.symm)]; exact mapSet_self _ _ _)
                (by rw [mapSet_ne _ _ _ _ (fun h => hlq h.symm),
                        mapSet_ne _ _ _ _ hq]; exact hprc)
            have hset : setLane pc.ConnectedTo lane.ID (combinedNavLane lane.ID lane peerLaneR) q
                = pc.ConnectedTo q := setLane_ne _ _ _ _ (fun h => hlq h.symm)
            refine ⟨pc', prc', h1, h2, h3, ?_, h5⟩
            rw [h4]
            show expectedPinLane q
                (setLane pc.ConnectedTo lane.ID (combinedNavLane lane.ID lane peerLaneR) q)
                (lastAdv q rest) (findPeerLane prc.statusLanes pinID) = _
            rw [hset]

theorem markLanesInactive_at (p : Pin) (k : String) :
    (markLanesInactive p).ConnectedTo k
      = match p.ConnectedTo k with
        | some l => some { l with active := false }
        | none => none := rfl

theorem removeInactiveLanes_eq (m : MapAll) (pinID : String) (pin : Pin)
    (hpc : m pinID = some pin) :
    removeInactiveLanes m pinID = removeInactiveCore m pinID pin := by
  unfold removeInactiveLanes
  rw [hpc]

theorem removeInactiveCore_at_pin (m : MapAll) (pinID : String) (pin : Pin) :
    removeInactiveCore m pinID pin pinID = some (cleanPin pin) := by
  unfold removeInactiveCore
  rw [if_pos rfl]

theorem removeInactiveCore_at_peer (m : MapAll) (pinID q : String) (pin peer : Pin)
    (hq : ¬ q = pinID) (hprc : m q = some peer) :
    removeInactiveCore m pinID pin q
      = match pin.ConnectedTo q with
        | some l =>
          if l.active then some peer
          else some (dropLaneTo peer pinID)
        | none => some peer := by
  unfold removeInactiveCore
  rw [if_neg hq, hprc]

theorem cleanPin_at (p : Pin) (k : String) :
    (cleanPin p).ConnectedTo k
      = match p.ConnectedTo k with
        | some l => if l.active then some l else none
        | none => none := rfl

theorem dropLaneTo_at_pin (peer : Pin) (pinID : String) :
    (dropLaneTo peer pinID).ConnectedTo pinID = none := delLane_self _ _

theorem combinedLatency_eq (a b : Int) :
    combinedLatency a b
      = if (a = 0 ∨ b = 0) ∧ (if b > a then b else a) < minUnconfirmedLatency
        then minUnconfirmedLatency
        else (if b > a then b else a) := rfl

theorem combinedCapacity_eq (a b : Int) :
    combinedCapacity a b
      = if (a = 0 ∨ b = 0) ∧ (if a = 0 ∨ (b > 0 ∧ b < a) then b else a) > maxUnconfirmedCapacity
        then maxUnconfirmedCapacity
        else (if a = 0 ∨ (b > 0 ∧ b < a) then b else a) := rfl

theorem if_gt_eq_max (a b : Int) : (if b > a then b else a) = max a b := by
  rcases le_or_lt b a with h | h
  · rw [if_neg (not_lt.mpr h), max_eq_left h]
  · rw [if_pos h, max_eq_right (le_of_lt h)]

/-- The latency half of C1: the combined latency is the maximum of the
two advertised latencies, raised to at least `minUnconfirmedLatency`
(10 ms) when at least one side advertises no data. -/
theorem combinedLatency_spec (a b : Int) :
    (¬ a = 0 → ¬ b = 0 → combinedLatency a b = max a b)
    ∧ ((a = 0 ∨ b = 0) → combinedLatency a b = max (max a b) minUnconfirmedLatency) := by
  constructor
  · intro ha hb
    rw [combinedLatency_eq, if_gt_eq_max]
    rw [if_neg (by rintro ⟨h | h, _⟩; exact ha h; exact hb h)]
  · intro h
    rw [combinedLatency_eq, if_gt_eq_max]
    by_cases hlt : max a b < minUnconfirmedLatency
    · rw [if_pos ⟨h, hlt⟩]
      exact (max_eq_right (le_of_lt hlt)).symm
    · rw [if_neg (fun hc => hlt hc.2)]
      exact (max_eq_left (not_lt.mp hlt)).symm

/-- The capacity half of C1: the combined capacity is the minimum of
the two advertised capacities when both advertise data, and is the sole
existing value capped at `maxUnconfirmedCapacity` (100 Mbit/s) when at
least one side advertises no data. -/
theorem combinedCapacity_spec (a b : Int) :
    (0 < a → 0 < b → combinedCapacity a b = min a b)
    ∧ ((a = 0 ∨ b = 0) → combinedCapacity a b = min (a + b) maxUnconfirmedCapacity) := by
  constructor
  · intro ha hb
    have hc : (if a = 0 ∨ (b > 0 ∧ b < a) then b else a) = min a b := by
      rcases lt_or_ge b a with h | h
      · rw [if_pos (Or.inr ⟨hb, h⟩), min_eq_right (le_of_lt h)]
      · rw [if_neg (by rintro (h0 | ⟨_, hba⟩); exact absurd h0 (ne_of_gt ha); omega),
            min_eq_left h]
    rw [combinedCapacity_eq, hc]
    rw [if_neg (by rintro ⟨h0 | h0, _⟩; exact absurd h0 (ne_of_gt ha); exact absurd h0 (ne_of_gt hb))]
  · intro h
    have hc : (if a = 0 ∨ (b > 0 ∧ b < a) then b else a) = a + b := by
      rcases h with ha | hb0
      · rw [if_pos (Or.inl ha), ha, zero_add]
      · by_cases ha : a = 0
        · rw [if_pos (Or.inl ha), ha, hb0, zero_add]
        · rw [if_neg (by rintro (h0 | ⟨hbpos, _⟩); exact ha h0; omega), hb0, add_zero]
    rw [combinedCapacity_eq, hc]
    by_cases hgt : maxUnconfirmedCapacity < a + b
    · rw [if_pos ⟨h, hgt⟩]
      exact (min_eq_right (le_of_lt hgt)).symm
    · rw [if_neg (fun hcond => hgt hcond.2)]
      exact (min_eq_left (not_lt.mp hgt)).symm

/-- **C1.** `updateHub`'s lane reconciliation between two pins on the
map: the stored Lane's latency is the maximum of the two hubs'
advertised latencies and its capacity the minimum of the two advertised
capacities, with the unconfirmed-data minimum (10 ms) and cap
(100 Mbit/s) applied when a side advertises no data (value 0); and a
lane entry exists between the two pins if and only if both hubs'
statuses advertise each other (a lane whose peer does not advertise a
corresponding lane is deleted).  The `hpair` hypothesis states that the
map is pairwise consistent for this pair before the update — lanes are
always created in pairs by `updateHubLane`, and the peer's own update
removes its side when it stops advertising — ruling out a pre-existing
one-sided stale lane held by the peer alone. -/
theorem updateHub_lane_spec (m : MapAll) (pinID q : String) (pin0 peer0 : Pin)
    (hq : ¬ q = pinID)
    (hpc : m pinID = some pin0) (hprc : m q = some peer0)
    (hpair : ¬ peer0.ConnectedTo pinID = none →
      ¬ pin0.ConnectedTo q = none
      ∧ ((lastAdv q pin0.statusLanes).isSome →
          (findPeerLane peer0.statusLanes pinID).isSome)) :
    (∀ a b : Int,
      (¬ a = 0 → ¬ b = 0 → combinedLatency a b = max a b)
      ∧ ((a = 0 ∨ b = 0) → combinedLatency a b = max (max a b) minUnconfirmedLatency))
    ∧ (∀ a b : Int,
      (0 < a → 0 < b → combinedCapacity a b = min a b)
      ∧ ((a = 0 ∨ b = 0) → combinedCapacity a b = min (a + b) maxUnconfirmedCapacity))
    ∧ ∃ pinF peerF,
      updateHubLanes m pinID pinID = some pinF
      ∧ updateHubLanes m pinID q = some peerF
      ∧ (¬ pinF.ConnectedTo q = none
          ↔ ((∃ lane ∈ pin0.statusLanes, lane.ID = q)
            ∧ ∃ pl ∈ peer0.statusLanes, pl.ID = pinID))
      ∧ (¬ peerF.ConnectedTo pinID = none
          ↔ ((∃ lane ∈ pin0.statusLanes, lane.ID = q)
            ∧ ∃ pl ∈ peer0.statusLanes, pl.ID = pinID))
      ∧ (∀ lane peerLane,
          lastAdv q pin0.statusLanes = some lane →
          findPeerLane peer0.statusLanes pinID = some peerLane →
          pinF.ConnectedTo q = some (combinedNavLane q lane peerLane)
          ∧ peerF.ConnectedTo pinID = some (combinedNavLane pinID lane peerLane)) := by
  refine ⟨combinedLatency_spec, combinedCapacity_spec, ?_⟩
  obtain ⟨pc', prc', hf1, hf2, hf3, hf4, hf5⟩ :=
    updateLanesFold_char pinID q hq pin0.statusLanes
      (mapSet m pinID (markLanesInactive pin0)) (markLanesInactive pin0) peer0
      (mapSet_self _ _ _) (by rw [mapSet_ne _ _ _ _ hq]; exact hprc)
  have hdef : updateHubLanes m pinID
      = removeInactiveLanes
          (updateLanesFold (mapSet m pinID (markLanesInactive pin0)) pinID pin0.statusLanes)
          pinID := by
    unfold updateHubLanes
    rw [hpc]
  have hatpin : updateHubLanes m pinID pinID = some (cleanPin pc') := by
    rw [hdef, removeInactiveLanes_eq _ pinID pc' hf1]
    exact removeInactiveCore_at_pin _ _ _
  have hatq : updateHubLanes m pinID q
      = (match pc'.ConnectedTo q with
         | some l => if l.active then some prc' else some (dropLaneTo prc' pinID)
         | none => some prc') := by
    rw [hdef, removeInactiveLanes_eq _ pinID pc' hf1]
    exact removeInactiveCore_at_peer _ _ _ _ prc' hq hf2
  cases hla : lastAdv q pin0.statusLanes with
  | none =>
    rw [hla, expectedPinLane_none, markLanesInactive_at] at hf4
    rw [hla, expectedPeerLane_none] at hf5
    have hrhsF : ¬ ((∃ lane ∈ pin0.statusLanes, lane.ID = q)
        ∧ ∃ pl ∈ peer0.statusLanes, pl.ID = pinID) := by
      rintro ⟨h1, _⟩
      have h2 := (lastAdv_isSome_iff q pin0.statusLanes).mpr h1
      rw [hla] at h2
      simp at h2
    cases hct : pin0.ConnectedTo q with
    | none =>
      rw [hct] at hf4
      simp only at hf4
      have hpinFq : (cleanPin pc').ConnectedTo q = none := by
        rw [cleanPin_at, hf4]
      have hpeerN : peer0.ConnectedTo pinID = none := by
        by_cases hpn : peer0.ConnectedTo pinID = none
        · exact hpn
        · exact absurd hct (hpair hpn).1
      have hpeerF : updateHubLanes m pinID q = some prc' := by
        rw [hatq, hf4]
      refine ⟨cleanPin pc', prc', hatpin, hpeerF, ?_, ?_, ?_⟩
      · rw [hpinFq]
        constructor
        · intro h
          exact absurd rfl h
        · intro h
          exact absurd h hrhsF
      · rw [hf5, hpeerN]
        constructor
        · intro h
          exact absurd rfl h
        · intro h
          exact absurd h hrhsF
      · intro lane peerLane h1 _
        exact Option.noConfusion h1
    | some l0 =>
      rw [hct] at hf4
      simp only at hf4
      have hpinFq : (cleanPin pc').ConnectedTo q = none := by
        rw [cleanPin_at, hf4]
        rfl
      have hpeerF : updateHubLanes m pinID q = some (dropLaneTo prc' pinID) := by
        rw [hatq, hf4]
        rfl
      refine ⟨cleanPin pc', dropLaneTo prc' pinID, hatpin, hpeerF, ?_, ?_, ?_⟩
      · rw [hpinFq]
        constructor
        · intro h
          exact absurd rfl h
        · intro h
          exact absurd h hrhsF
      · rw [dropLaneTo_at_pin]
        constructor
        · intro h
          exact absurd rfl h
        · intro h
          exact absurd h hrhsF
      · intro lane peerLane h1 _
        exact Option.noConfusion h1
  | some lane0 =>
    rw [hla] at hf4 hf5
    cases hfp : findPeerLane peer0.statusLanes pinID with
    | none =>
      rw [hfp, expectedPinLane_del] at hf4
      rw [hfp, expectedPeerLane_del] at hf5
      have hrhsF : ¬ ((∃ lane ∈ pin0.statusLanes, lane.ID = q)
          ∧ ∃ pl ∈ peer0.statusLanes, pl.ID = pinID) := by
        rintro ⟨_, h2⟩
        have h3 := (findPeerLane_isSome_iff peer0.statusLanes pinID).mpr h2
        rw [hfp] at h3
        simp at h3
      have hpinFq : (cleanPin pc').ConnectedTo q = none := by
        rw [cleanPin_at, hf4]
      have hpeerF : updateHubLanes m pinID q = some prc' := by
        rw [hatq, hf4]
      have hpeerN : peer0.ConnectedTo pinID = none := by
        by_cases hpn : peer0.ConnectedTo pinID = none
        · exact hpn
        · have h4 := (hpair hpn).2 (by rw [hla]; rfl)
          rw [hfp] at h4
          simp at h4
      refine ⟨cleanPin pc', prc', hatpin, hpeerF, ?_, ?_, ?_⟩
      · rw [hpinFq]
        constructor
        · intro h
          exact absurd rfl h
        · intro h
          exact absurd h hrhsF
      · rw [hf5, hpeerN]
        constructor
        · intro h
          exact absurd rfl h
        · intro h
          exact absurd h hrhsF
      · intro lane peerLane _ h2
        exact Option.noConfusion h2
    | some peerLane0 =>
      rw [hfp, expectedPinLane_set] at hf4
      rw [hfp, expectedPeerLane_set] at hf5
      have hrhsT : ((∃ lane ∈ pin0.statusLanes, lane.ID = q)
          ∧ ∃ pl ∈ peer0.statusLanes, pl.ID = pinID) := by
        constructor
        · exact (lastAdv_isSome_iff q pin0.statusLanes).mp (by rw [hla]; rfl)
        · exact (findPeerLane_isSome_iff peer0.statusLanes pinID).mp (by rw [hfp]; rfl)
      have hpinFq : (cleanPin pc').ConnectedTo q
          = some (combinedNavLane q lane0 peerLane0) := by
        rw [cleanPin_at, hf4]
        rfl
      have hpeerF : updateHubLanes m pinID q = some prc' := by
        rw [hatq, hf4]
        rfl
      refine ⟨cleanPin pc', prc', hatpin, hpeerF, ?_, ?_, ?_⟩
      · rw [hpinFq]
        constructor
        · intro _
          exact hrhsT
        · intro _ h
          exact Option.noConfusion h
      · rw [hf5]
        constructor
        · intro _
          exact hrhsT
        · intro _ h
          exact Option.noConfusion h
      · intro lane peerLane h1 h2
        cases h1
        cases h2
        exact ⟨hpinFq, hf5⟩

/-- Lane advertised by hub A toward B for the C1 witness: 30 ms
latency, no capacity data. -/
def laneAtoB : HubLane := ⟨"B", 30000000, 0⟩

/-- Lane advertised by hub B toward A for the C1 witness: 20 ms
latency, 50 Mbit/s. -/
def laneBtoA : HubLane := ⟨"A", 20000000, 50000000⟩

/-- Pin of hub A for the C1 witness. -/
def pinA : Pin := ⟨"A", [laneAtoB], fun _ => none⟩

/-- Pin of hub B for the C1 witness. -/
def pinB : Pin := ⟨"B", [laneBtoA], fun _ => none⟩

/-- Two-pin map for the C1 witness. -/
def mapW : MapAll :=
  fun k => if k = "A" then some pinA else if k = "B" then some pinB else none

/-- Witness for C1 at the concrete two-pin map: both hubs advertise
each other, so the reconciled lane exists on both pins with the
combined values. -/
theorem updateHub_lane_spec_witness :
    (∀ a b : Int,
      (¬ a = 0 → ¬ b = 0 → combinedLatency a b = max a b)
      ∧ ((a = 0 ∨ b = 0) → combinedLatency a b = max (max a b) minUnconfirmedLatency))
    ∧ (∀ a b : Int,
      (0 < a → 0 < b → combinedCapacity a b = min a b)
      ∧ ((a = 0 ∨ b = 0) → combinedCapacity a b = min (a + b) maxUnconfirmedCapacity))
    ∧ ∃ pinF peerF,
      updateHubLanes mapW "A" "A" = some pinF
      ∧ updateHubLanes mapW "A" "B" = some peerF
      ∧ (¬ pinF.ConnectedTo "B" = none
          ↔ ((∃ lane ∈ pinA.statusLanes, lane.ID = "B")
            ∧ ∃ pl ∈ pinB.statusLanes, pl.ID = "A"))
      ∧ (¬ peerF.ConnectedTo "A" = none
          ↔ ((∃ lane ∈ pinA.statusLanes, lane.ID = "B")
            ∧ ∃ pl ∈ pinB.statusLanes, pl.ID = "A"))
      ∧ (∀ lane peerLane,
          lastAdv "B" pinA.statusLanes = some lane →
          findPeerLane pinB.statusLanes "A" = some peerLane →
          pinF.ConnectedTo "B" = some (combinedNavLane "B" lane peerLane)
          ∧ peerF.ConnectedTo "A" = some (combinedNavLane "A" lane peerLane)) :=
  updateHub_lane_spec mapW "A" "B" pinA pinB (by decide)
    (by unfold mapW; rw [if_pos rfl])
    (by unfold mapW; rw [if_neg (by decide), if_pos rfl])
    (fun h => absurd rfl h)

end Spn
